import Mathlib

/-!
Verification of the edir batch mutation engine (src/edir.py).

Paths are shallow-embedded as their component lists (mirroring pathlib's
normalisation: `.` components and empty components are dropped).  The
filesystem is a finite map from paths to file contents plus a registry of
directories.  All functions are translated from src/edir.py; the run is
modelled in the default configuration (no git repository, no trash
program), which is the configuration the claims are about.
-/

namespace Edir

/-- A filesystem path, embedded as its list of components
(pathlib normal form: no `.` or empty components). -/
abbrev FPath := List String

/-- `TEMPDIR = '.tmp-' + PROG` from src/edir.py (PROG is `edir`). -/
def TEMPDIR : String := ".tmp-edir"

/-! ### Decimal rendering of naturals (Python `str(c)` in `f'~{c}'`) -/

/-- Decimal digit list of a natural number, least significant digit last,
with structural fuel (`fuel ≥ n` always suffices). -/
def natDigitsFuel : Nat → Nat → List Char
  | 0, n => [Char.ofNat (48 + n)]
  | (fuel+1), n =>
    if n < 10 then [Char.ofNat (48 + n)]
    else natDigitsFuel fuel (n / 10) ++ [Char.ofNat (48 + n % 10)]

/-- Decimal digit list of a natural number; embeds Python's `str()` of a
nonnegative int as used in `inc_path`. -/
def natDigits (n : Nat) : List Char := natDigitsFuel n n

/-- Decimal rendering of a natural number. -/
def natRepr (n : Nat) : String := ⟨natDigits n⟩

/-- Value of a digit list, used only to prove `natRepr` injective. -/
def digitsVal (l : List Char) : Nat :=
  l.foldl (fun a ch => a * 10 + (ch.toNat - 48)) 0

theorem digitsVal_append_singleton (l : List Char) (ch : Char) :
    digitsVal (l ++ [ch]) = digitsVal l * 10 + (ch.toNat - 48) := by
  simp [digitsVal, List.foldl_append]

theorem toNat_ofNat_digit (n : Nat) (h : n < 10) :
    (Char.ofNat (48 + n)).toNat = 48 + n := by
  interval_cases n <;> decide

theorem digitsVal_natDigitsFuel (fuel : Nat) :
    ∀ n, n ≤ fuel → digitsVal (natDigitsFuel fuel n) = n := by
  induction fuel with
  | zero =>
    intro n hn
    have hz : n = 0 := Nat.le_zero.mp hn
    subst hz
    simp [natDigitsFuel, digitsVal, toNat_ofNat_digit 0 (by omega)]
  | succ fuel ih =>
    intro n hn
    rw [natDigitsFuel]
    split
    · next h =>
      simp [digitsVal, toNat_ofNat_digit n h]
    · next h =>
      have hd : n / 10 ≤ fuel := by
        have : n / 10 < n := Nat.div_lt_self (by omega) (by omega)
        omega
      rw [digitsVal_append_singleton, ih (n / 10) hd,
        toNat_ofNat_digit (n % 10) (Nat.mod_lt _ (by omega))]
      omega

theorem digitsVal_natDigits (n : Nat) : digitsVal (natDigits n) = n :=
  digitsVal_natDigitsFuel n n (Nat.le_refl n)

theorem natRepr_injective : Function.Injective natRepr := by
  intro a b h
  have hd : natDigits a = natDigits b := congrArg String.data h
  have := congrArg digitsVal hd
  rwa [digitsVal_natDigits, digitsVal_natDigits] at this

theorem natDigits_ne_nil (n : Nat) : natDigits n ≠ [] := by
  rw [natDigits]
  cases n with
  | zero => simp [natDigitsFuel]
  | succ m => rw [natDigitsFuel]; split <;> simp

theorem natRepr_length_pos (n : Nat) : 0 < (natRepr n).length := by
  have := natDigits_ne_nil n
  simp [natRepr, String.length]
  exact List.length_pos.mpr this

/-! ### The unique-name resolver (`Path.inc_path` in src/edir.py)

The source loops forever over candidate names `name`, `name~`, `name~1`,
`name~2`, … and returns the first one no filesystem object (file, directory
or dangling symlink) occupies.  The set of occupied paths is passed in as
the list `occ`.  The loop terminates because `occ` is finite; here the loop
is given the provably sufficient fuel `occ.length + 2`
(`exists_free_cand` below shows a free candidate occurs that early). -/

/-- Final component of a path (pathlib's `.name`). -/
def lastName (p : FPath) : String := p.getLast?.getD ""

/-- The `k`-th candidate name suffix: `name`, `name~`, `name~1`, `name~2`, …
(`name + ('~' if c <= 0 else f'~{c}')` in the source). -/
def candName (name : String) : Nat → String
  | 0 => name
  | 1 => name ++ "~"
  | (k+2) => name ++ "~" ++ natRepr (k+1)

/-- The `k`-th candidate path checked by `inc_path`: the path itself, then
`path.with_name(name + suffix)` for the successive suffixes. -/
def cand (p : FPath) : Nat → FPath
  | 0 => p
  | (k+1) => p.dropLast ++ [candName (lastName p) (k+1)]

theorem length_tilde : ("~" : String).length = 1 := rfl

theorem candName_length_zero (name : String) : (candName name 0).length = name.length := rfl

theorem candName_length_one (name : String) : (candName name 1).length = name.length + 1 := by
  show (name ++ "~").length = name.length + 1
  rw [String.length_append, length_tilde]

theorem candName_length_two (name : String) (k : Nat) :
    (candName name (k+2)).length = name.length + 1 + (natRepr (k+1)).length := by
  show (name ++ "~" ++ natRepr (k+1)).length = name.length + 1 + (natRepr (k+1)).length
  rw [String.length_append, String.length_append, length_tilde]

theorem candName_injective (name : String) : Function.Injective (candName name) := by
  intro a b h
  match a, b with
  | 0, 0 => rfl
  | 0, 1 =>
    have := congrArg String.length h
    rw [candName_length_zero, candName_length_one] at this; omega
  | 1, 0 =>
    have := congrArg String.length h
    rw [candName_length_one, candName_length_zero] at this; omega
  | 0, (b+2) =>
    have := congrArg String.length h
    rw [candName_length_zero, candName_length_two] at this
    have := natRepr_length_pos (b+1); omega
  | (a+2), 0 =>
    have := congrArg String.length h
    rw [candName_length_two, candName_length_zero] at this
    have := natRepr_length_pos (a+1); omega
  | 1, (b+2) =>
    have := congrArg String.length h
    rw [candName_length_one, candName_length_two] at this
    have := natRepr_length_pos (b+1); omega
  | (a+2), 1 =>
    have := congrArg String.length h
    rw [candName_length_two, candName_length_one] at this
    have := natRepr_length_pos (a+1); omega
  | 1, 1 => rfl
  | (a+2), (b+2) =>
    have hd : (candName name (a+2)).data = (candName name (b+2)).data := congrArg String.data h
    simp only [candName, String.data_append] at hd
    have hdd : (natRepr (a+1)).data = (natRepr (b+1)).data := by simpa using hd
    have hrr : natRepr (a+1) = natRepr (b+1) := by
      cases hra : natRepr (a+1); cases hrb : natRepr (b+1)
      rw [hra, hrb] at hdd
      simp_all
    have := natRepr_injective hrr
    omega

theorem candName_ne_of_pos (name : String) (k : Nat) (hk : 0 < k) :
    candName name k ≠ name := by
  intro h
  have h0 : candName name k = candName name 0 := by simpa [candName] using h
  have := candName_injective name h0
  omega

theorem cand_injective (p : FPath) : Function.Injective (cand p) := by
  intro a b h
  match a, b with
  | 0, 0 => rfl
  | (a+1), (b+1) =>
    have hc : candName (lastName p) (a+1) = candName (lastName p) (b+1) := by
      have h2 : [candName (lastName p) (a+1)] = [candName (lastName p) (b+1)] :=
        List.append_cancel_left h
      simpa using h2
    have := candName_injective (lastName p) hc
    omega
  | 0, (b+1) =>
    exfalso
    rcases List.eq_nil_or_concat p with hp | ⟨q, x, hp⟩
    · subst hp; simp [cand] at h
    · rw [List.concat_eq_append] at hp
      subst hp
      simp only [cand] at h
      have hdl : (q ++ [x]).dropLast = q := by simp
      have hln : lastName (q ++ [x]) = x := by simp [lastName]
      rw [hdl, hln] at h
      have hx : x = candName x (b+1) := by
        have h2 : [x] = [candName x (b+1)] := List.append_cancel_left h
        simpa using h2
      exact candName_ne_of_pos x (b+1) (by omega) hx.symm
  | (a+1), 0 =>
    exfalso
    rcases List.eq_nil_or_concat p with hp | ⟨q, x, hp⟩
    · subst hp; simp [cand] at h
    · rw [List.concat_eq_append] at hp
      subst hp
      simp only [cand] at h
      have hdl : (q ++ [x]).dropLast = q := by simp
      have hln : lastName (q ++ [x]) = x := by simp [lastName]
      rw [hdl, hln] at h
      have hx : candName x (a+1) = x := by
        have h2 : [candName x (a+1)] = [x] := List.append_cancel_left h
        simpa using h2
      exact candName_ne_of_pos x (a+1) (by omega) hx

/-- Pigeonhole: among the first `occ.length + 2` candidates one is free. -/
theorem exists_free_cand (occ : List FPath) (p : FPath) :
    ∃ j < occ.length + 2, cand p j ∉ occ := by
  by_contra hall
  push_neg at hall
  have hsub : (List.range (occ.length + 2)).map (cand p) ⊆ occ := by
    intro q hq
    rcases List.mem_map.mp hq with ⟨j, hj, rfl⟩
    exact hall j (List.mem_range.mp hj)
  have hnd : ((List.range (occ.length + 2)).map (cand p)).Nodup :=
    (List.nodup_range _).map (cand_injective p)
  have := (List.subperm_of_subset hnd hsub).length_le
  simp at this

/-- The candidate-probing loop of `inc_path`: starting at candidate index
`k`, return the first free candidate, with `fuel` probes available. -/
def inc_path_aux (occ : List FPath) (p : FPath) : Nat → Nat → FPath
  | 0, k => cand p k
  | (fuel+1), k => if occ.contains (cand p k) then inc_path_aux occ p fuel (k+1) else cand p k

/-- `Path.inc_path` from src/edir.py: find the next unique file name.  The
source iterates forever; `occ.length + 2` probes provably suffice. -/
def inc_path (occ : List FPath) (p : FPath) : FPath :=
  inc_path_aux occ p (occ.length + 2) 0

theorem inc_path_aux_spec (occ : List FPath) (p : FPath) :
    ∀ fuel k, (∃ j < fuel, cand p (k + j) ∉ occ) →
      ∃ m, inc_path_aux occ p fuel k = cand p (k + m) ∧ m < fuel ∧
        cand p (k + m) ∉ occ ∧ ∀ i < m, cand p (k + i) ∈ occ := by
  intro fuel
  induction fuel with
  | zero => intro k h; rcases h with ⟨j, hj, _⟩; omega
  | succ fuel ih =>
    intro k h
    by_cases hocc : occ.contains (cand p k)
    · have hk : cand p k ∈ occ := by simpa using hocc
      have h' : ∃ j < fuel, cand p (k + 1 + j) ∉ occ := by
        rcases h with ⟨j, hj, hfree⟩
        match j with
        | 0 => exact absurd hk (by simpa using hfree)
        | (j+1) => exact ⟨j, by omega, by rw [show k + 1 + j = k + (j+1) by omega]; exact hfree⟩
      rcases ih (k+1) h' with ⟨m, hres, hm, hfree, hall⟩
      refine ⟨m + 1, ?_, by omega, ?_, ?_⟩
      · rw [inc_path_aux, if_pos hocc, hres]; congr 1; omega
      · rw [show k + (m + 1) = k + 1 + m by omega]; exact hfree
      · intro i hi
        match i with
        | 0 => simpa using hk
        | (i+1) =>
          rw [show k + (i+1) = k + 1 + i by omega]
          exact hall i (by omega)
    · refine ⟨0, ?_, by omega, ?_, fun i hi => absurd hi (by omega)⟩
      · rw [inc_path_aux, if_neg hocc]; simp
      · rw [Nat.add_zero]
        simpa using hocc

/-- `inc_path` returns the first free candidate. -/
theorem inc_path_spec (occ : List FPath) (p : FPath) :
    ∃ m, inc_path occ p = cand p m ∧ cand p m ∉ occ ∧ ∀ i < m, cand p i ∈ occ := by
  rcases exists_free_cand occ p with ⟨j, hj, hfree⟩
  rcases inc_path_aux_spec occ p (occ.length + 2) 0 ⟨j, hj, by simpa using hfree⟩ with
    ⟨m, hres, _, hfm, hall⟩
  exact ⟨m, by simpa using hres, by simpa using hfm, fun i hi => by simpa using hall i hi⟩

/-- The result of `inc_path` is never an occupied path. -/
theorem inc_path_not_mem (occ : List FPath) (p : FPath) : inc_path occ p ∉ occ := by
  rcases inc_path_spec occ p with ⟨m, hres, hfree, _⟩
  rw [hres]; exact hfree

/-- If the input path is free, `inc_path` returns it unchanged. -/
theorem inc_path_eq_self (occ : List FPath) (p : FPath) (h : p ∉ occ) :
    inc_path occ p = p := by
  rcases inc_path_spec occ p with ⟨m, hres, _, hall⟩
  match m with
  | 0 => simpa [cand] using hres
  | (m+1) =>
    exfalso
    have h0 : cand p 0 ∈ occ := hall 0 (Nat.succ_pos m)
    rw [show cand p 0 = p from rfl] at h0
    exact h h0

/-! ### Path strings (pathlib embedding)

A path string is normalised the way `pathlib.PurePosixPath` does: split on
`/`, drop empty and `.` components; a leading `/` becomes the root
component `"/"`. -/

/-- Split a character list into the groups between `/` separators. -/
def splitOnSlash : List Char → List (List Char)
  | [] => [[]]
  | c :: rest =>
    match splitOnSlash rest with
    | [] => [[]]
    | grp :: grps => if c = '/' then [] :: grp :: grps else (c :: grp) :: grps

/-- `pathlib.Path(s)` as a component list. -/
def normalize (s : String) : FPath :=
  let comps := ((splitOnSlash s.data).map (fun l => (⟨l⟩ : String))).filter
    (fun c => !(c == "" || c == "."))
  if s.data.head? == some '/' then "/" :: comps else comps

/-- `str(path)` for a normalised path. -/
def pathStr (p : FPath) : String :=
  match p with
  | [] => "."
  | "/" :: rest => "/" ++ String.intercalate "/" rest
  | _ => String.intercalate "/" p

/-- `path.name` in pathlib: the final component (empty for the root). -/
def entityName (p : FPath) : String := if p = ["/"] then "" else lastName p

/-! ### The filesystem model

A finite map from file paths to contents (`Nat` stands for the file's
bytes) plus a registry of directory paths.  Symbolic links are not
modelled separately; a link occupies its path like any other object.
Ancestor directories are not tracked individually: `mkdirp` registers
exactly the requested directory (the engine only ever probes the paths it
creates or moves). -/

structure Fs where
  files : List (FPath × Nat)
  dirs : List FPath
deriving DecidableEq

def Fs.fileKeys (fs : Fs) : List FPath := fs.files.map Prod.fst

def Fs.hasFile (fs : Fs) (p : FPath) : Bool := fs.files.any (fun kv => kv.1 == p)

def Fs.isDirAt (fs : Fs) (p : FPath) : Bool := fs.dirs.contains p

/-- `path.exists()` (or a dangling symlink occupying the path). -/
def Fs.existsAt (fs : Fs) (p : FPath) : Bool := fs.hasFile p || fs.isDirAt p

/-- All occupied paths; this is the occupancy list handed to `inc_path`. -/
def Fs.occupied (fs : Fs) : List FPath := fs.fileKeys ++ fs.dirs

def Fs.lookup (fs : Fs) (p : FPath) : Option Nat :=
  (fs.files.find? (fun kv => kv.1 == p)).map Prod.snd

/-- `p` lies strictly below directory `d`. -/
def underDir (d p : FPath) : Bool := decide (d.length < p.length) && p.take d.length == d

/-- `os.replace` semantics: move the object at `src` to `dst`, overwriting
a file already at `dst`.  Directories move together with everything below
them.  (Renaming a missing source raises in Python and is unreachable in
the modelled runs; here it is the identity.) -/
def Fs.rename (fs : Fs) (src dst : FPath) : Fs :=
  match fs.files.find? (fun kv => kv.1 == src) with
  | some kv =>
      { fs with files := (dst, kv.2) ::
          (fs.files.filter (fun kv2 => !(kv2.1 == src || kv2.1 == dst))) }
  | none =>
      if fs.dirs.contains src then
        { files := fs.files.map (fun kv2 =>
            if underDir src kv2.1 then (dst ++ kv2.1.drop src.length, kv2.2) else kv2),
          dirs := fs.dirs.map (fun d =>
            if d == src then dst
            else if underDir src d then dst ++ d.drop src.length else d) }
      else fs

/-- `mkdir(parents=True, exist_ok=True)`: `none` when creation fails
(a file occupies the path — the modelled analogue of the caught
exception), otherwise the filesystem with the directory present. -/
def Fs.mkdirp (fs : Fs) (p : FPath) : Option Fs :=
  if fs.hasFile p then none
  else if fs.dirs.contains p then some fs
  else some { fs with dirs := p :: fs.dirs }

/-- Everything at or strictly below `p` is removed (`shutil.rmtree`). -/
def Fs.rmtreeAt (fs : Fs) (p : FPath) : Fs :=
  { files := fs.files.filter (fun kv => !(kv.1 == p || underDir p kv.1)),
    dirs := fs.dirs.filter (fun d => !(d == p || underDir p d)) }

/-- `any(path.iterdir())`. -/
def Fs.hasChildren (fs : Fs) (p : FPath) : Bool :=
  fs.files.any (fun kv => underDir p kv.1) || fs.dirs.any (fun d => underDir p d)

/-- `remove(path, git=False, trash=False, recurse)` from src/edir.py in the
default configuration (no git, no trash): refuse to delete a non-empty
directory unless `recurse`; with `recurse` run `rmtree`; otherwise `rmdir`
a directory or `unlink` a file.  Errors are returned as messages. -/
def removeFs (fs : Fs) (p : FPath) (recurse : Bool) : Except String Fs :=
  if !recurse && fs.isDirAt p && fs.hasChildren p then .error "Directory not empty"
  else if recurse then
    if fs.existsAt p then .ok (fs.rmtreeAt p) else .error "No such file or directory"
  else if fs.isDirAt p then .ok { fs with dirs := fs.dirs.erase p }
  else if fs.hasFile p then
    .ok { fs with files := fs.files.filter (fun kv => !(kv.1 == p)) }
  else .error "No such file or directory"

/-! ### Path entities and the run state -/

/-- The `Path` class instance fields used by the engine.  `diagrepr` is
fixed at construction (a trailing `/` for directories); `note` is set by
pass 1 of the engine. -/
structure Entity where
  path : FPath
  newpath : Option FPath := none
  temppath : Option FPath := none
  copies : List FPath := []
  is_dir : Bool := false
  diagrepr : String := ""
  note : String := ""
deriving DecidableEq

/-- Entity construction (`Path.__init__`) from a live filesystem probe. -/
def mkEntity (fs : Fs) (p : FPath) : Entity :=
  let isd := fs.isDirAt p
  let d := pathStr p
  { path := p, is_dir := isd,
    diagrepr := if isd && !d.endsWith "/" then d ++ "/" else d }

/-- One element of the global `failed_actions` list: either an operation
tuple `(action, source_path, target_path)` with a `d`/`r`/`c` tag, or the
record made for an unparsable actions-file line (the line itself in the
action slot, source and target `None`). -/
inductive FailedAction where
  | op : Char → FPath → Option FPath → FailedAction
  | raw : String → FailedAction
deriving DecidableEq

/-- One element of the global `applied_actions` list. -/
inductive AppliedAction where
  | one : Char → String → AppliedAction
  | two : Char → String → String → AppliedAction
deriving DecidableEq

/-- The mutable run context: the filesystem plus the process-wide
accumulators `applied_actions`, `failed_actions` and `Path.tempdirs`
(the Python set is modelled as an insertion-ordered duplicate-free list). -/
structure RunState where
  fs : Fs
  applied : List AppliedAction := []
  failed : List FailedAction := []
  tempdirs : List FPath := []
deriving DecidableEq

/-! ### Staging protocol (`Path.rename_temp` / `Path.restore_temp`) -/

/-- `Path.rename_temp`: create the holding directory next to the intended
destination, move this entity there under a resolver-assigned unique name.
Returns an error message when the holding directory cannot be created. -/
def rename_temp (st : RunState) (e : Entity) : Option String × RunState × Entity :=
  let np := e.newpath.getD []
  let tempdir := np.dropLast ++ [TEMPDIR]
  match st.fs.mkdirp tempdir with
  | none =>
    (some ("Create dir for " ++ e.diagrepr ++ " ERROR: Can not write in "
      ++ pathStr tempdir.dropLast), st, e)
  | some fs1 =>
    let tp := inc_path fs1.occupied (tempdir ++ [lastName np])
    let tds := if st.tempdirs.contains tempdir then st.tempdirs else st.tempdirs ++ [tempdir]
    (none, { st with fs := fs1.rename e.path tp, tempdirs := tds },
      { e with temppath := some tp })

/-- `Path.restore_temp`: if staged, move the staged object to a
resolver-assigned unique final name; returns whether a restore happened. -/
def restore_temp (st : RunState) (e : Entity) : Bool × RunState × Entity :=
  match e.temppath with
  | none => (false, st, e)
  | some tp =>
    let np := inc_path st.fs.occupied (e.newpath.getD [])
    (true, { st with fs := st.fs.rename tp np }, { e with newpath := some np })

/-- `Path.copy`: `copytree` for directories, `copy2` for files, reading
from the entity's (post-restore) `newpath`. -/
def copyEntity (fs : Fs) (e : Entity) (dst : FPath) : Except String Fs :=
  let src := e.newpath.getD []
  if e.is_dir then
    if fs.existsAt dst then .error "File exists"
    else if fs.isDirAt src then
      .ok { files := fs.files ++ fs.files.filterMap (fun kv =>
              if underDir src kv.1 then some (dst ++ kv.1.drop src.length, kv.2) else none),
            dirs := dst :: (fs.dirs ++ fs.dirs.filterMap (fun d =>
              if underDir src d then some (dst ++ d.drop src.length) else none)) }
    else .error "No such file or directory"
  else
    match fs.lookup src with
    | some v =>
      if fs.isDirAt dst then .error "Is a directory"
      else .ok { fs with files := (dst, v) :: fs.files.filter (fun kv => !(kv.1 == dst)) }
    | none => .error "No such file or directory"

/-! ### The execution engine (`perform_actions`) -/

/-- Pass 1 body for one entity: stage entities with a real rename, delete
non-directory entities with no rename; directories wait for pass 2. -/
def pass1Step (st : RunState) (e : Entity) : RunState × Entity :=
  let e1 := { e with note := if e.is_dir && st.fs.hasChildren e.path then " recursively" else "" }
  match e1.newpath with
  | some np =>
    if np = e1.path then (st, e1)
    else
      match rename_temp st e1 with
      | (some _, st2, e2) =>
        ({ st2 with failed := st2.failed ++ [.op 'r' e2.path (some np)] }, e2)
      | (none, st2, e2) => (st2, e2)
  | none =>
    if !e1.is_dir then
      match removeFs st.fs e1.path false with
      | .error _ => ({ st with failed := st.failed ++ [.op 'd' e1.path none] }, e1)
      | .ok fs2 =>
        ({ st with fs := fs2, applied := st.applied ++ [.one 'd' e1.diagrepr] }, e1)
    else (st, e1)

/-- Pass 2 body: delete directories with no rename (failures are silently
deferred to pass 4; success reclassifies the entity as not-a-directory). -/
def pass2Step (recurse : Bool) (st : RunState) (e : Entity) : RunState × Entity :=
  if e.is_dir && e.newpath.isNone then
    match removeFs st.fs e.path recurse with
    | .ok fs2 =>
      ({ st with fs := fs2, applied := st.applied ++ [.one 'd' (e.diagrepr ++ e.note)] },
        { e with is_dir := false })
    | .error _ => (st, e)
  else (st, e)

/-- Pass 3 body: restore staged entities to their final destination, then
make the requested copies in order. -/
def pass3Step (st : RunState) (e : Entity) : RunState × Entity :=
  let appdash := if e.is_dir then "/" else ""
  let r := restore_temp st e
  let e1 := r.2.2
  let st2 :=
    if r.1 then
      { r.2.1 with applied := r.2.1.applied ++
          [.two 'r' e1.diagrepr (pathStr (e1.newpath.getD []) ++ appdash)] }
    else r.2.1
  let st3 := e1.copies.foldl (fun acc c =>
    match copyEntity acc.fs e1 c with
    | .error _ => { acc with failed := acc.failed ++ [.op 'c' e1.path (some c)] }
    | .ok fs2 =>
      { acc with
          fs := fs2,
          applied := acc.applied ++ [.two 'c' e1.diagrepr (pathStr c ++ appdash ++ e1.note)] }) st2
  (st3, e1)

/-- `Path.remove_temps`: recursively delete every holding directory created
during the run, ignoring errors. -/
def remove_temps (st : RunState) : RunState :=
  { st with
    fs := st.tempdirs.foldl (fun fs td =>
      match removeFs fs td true with
      | .ok fs2 => fs2
      | .error _ => fs) st.fs,
    tempdirs := [] }

/-- Pass 4 body: delete the directories that remain. -/
def pass4Step (recurse : Bool) (st : RunState) (e : Entity) : RunState × Entity :=
  if e.is_dir && e.newpath.isNone then
    match removeFs st.fs e.path recurse with
    | .error _ => ({ st with failed := st.failed ++ [.op 'd' e.path none] }, e)
    | .ok fs2 =>
      ({ st with fs := fs2, applied := st.applied ++ [.one 'd' (e.diagrepr ++ e.note)] }, e)
  else (st, e)

/-- Sequential left-to-right iteration of a pass over the entity batch,
threading the run state and rebuilding the (mutated) entity list. -/
def foldStep (f : RunState → Entity → RunState × Entity) :
    RunState → List Entity → RunState × List Entity
  | st, [] => (st, [])
  | st, e :: es =>
    let p := f st e
    let q := foldStep f p.1 es
    (q.1, p.2 :: q.2)

/-- The fixed comment block `create_actions_file` writes before the failed
operations (its `workdir` provenance line first). -/
def actionsFileHeaderLines (workdir : String) : List String :=
  [ "# workdir: " ++ workdir,
    "#",
    "# Be careful when editing this file. The order of entries matters. Also the",
    "# number of whitespace characters is significant.",
    "#",
    "# Format of this file:",
    "#  operation  source file name  [single space  arrow  single space  new file name]",
    "#  │          │                  │             │      │             │",
    "#  │ ┌────────┘   ┌──────────────┘             │      │             │",
    "#  │ │            │┌───────────────────────────┘      │             │",
    "#  │ │            ││┌─────────────────────────────────┘             │",
    "#  │ │            │││┌──────────────────────────────────────────────┘",
    "#  │ │            ││││",
    "#  ▼ ▼            ▼▼▼▼",
    "#  d ./source file → ./target file",
    "#",
    "#  The possible operations are:",
    "#  d: Delete (only the source file name is allowed as additional content then",
    "#  r: Rename",
    "#  c: Copy",
    "#",
    "#  The arrow symbol must be surrounded by exactly 1 space character on each",
    "#  side. All other whitespace characters are recognized as parts of the",
    "#  file name then.",
    "#",
    "#  As the arrow has a special meaning here, it is not possible to use it in",
    "#  the actual file names. Escaping is not supported.",
    "#",
    "#  This file format is still subject to change.",
    "#",
    "#  Empty lines and lines starting with a hash mark (#) are ignored",
    "" ]

/-- `to_actions_file`: the line written for one failed action.  A `None`
source (the unparsable-line record) writes the action slot alone; a `None`
target writes `tag source`; otherwise `tag source → target`. -/
def renderFailed : FailedAction → String
  | .raw line => line
  | .op tag src none => String.singleton tag ++ " " ++ pathStr src
  | .op tag src (some dst) =>
    String.singleton tag ++ " " ++ pathStr src ++ " → " ++ pathStr dst

/-- `return (1 if len(applied_actions) > 0 else 2) if len(failed_actions) > 0 else 0`. -/
def statusOf (applied : List AppliedAction) (failed : List FailedAction) : Nat :=
  if failed.length > 0 then (if applied.length > 0 then 1 else 2) else 0

/-- The outcome of `perform_actions`: the final run state and entity list,
the recovery actions file (when one was written) and the exit status. -/
structure RunResult where
  state : RunState
  entities : List Entity
  recovery : Option (List String)
  status : Nat
deriving DecidableEq

/-- The four passes of `perform_actions` plus the holding-directory
cleanup between passes 3 and 4. -/
def engineRun (recurse : Bool) (st : RunState) (es : List Entity) :
    RunState × List Entity :=
  let r1 := foldStep pass1Step st es
  let r2 := foldStep (pass2Step recurse) r1.1 r1.2
  let r3 := foldStep pass3Step r2.1 r2.2
  let st4 := remove_temps r3.1
  foldStep (pass4Step recurse) st4 r3.2

/-- `perform_actions` from src/edir.py: the four-pass commit protocol,
holding-directory cleanup, recovery-file generation (only when the failed
sequence is non-empty) and the exit status. -/
def perform_actions (recurse : Bool) (workdir : String) (st : RunState)
    (es : List Entity) : RunResult :=
  let r4 := engineRun recurse st es
  let recov := if r4.1.failed.isEmpty then none
               else some (actionsFileHeaderLines workdir ++ r4.1.failed.map renderFailed)
  { state := r4.1, entities := r4.2, recovery := recov,
    status := statusOf r4.1.applied r4.1.failed }

/-! ### Actions-file codec — read path (`Path.read_actionsfile`) -/

/-- Python `str.lstrip()` (ASCII whitespace; the claims only exercise
ASCII). -/
def lstripStr (s : String) : String := ⟨s.data.dropWhile Char.isWhitespace⟩

/-- Split a character list at its first arrow glyph, if any. -/
def splitFirstArrow : List Char → Option (List Char × List Char)
  | [] => none
  | c :: rest =>
    if c = '→' then some ([], rest)
    else
      match splitFirstArrow rest with
      | none => none
      | some pq => some (c :: pq.1, pq.2)

/-- One parsed actions-file record: tag (`d`/`r`/`c`), the source field,
and the optional destination field. -/
structure ActionRecord where
  tag : Char
  src : String
  dst : Option String
deriving DecidableEq

/-- The match of `ACTION_LINE_REGEX = r'^([drc]) ([^→]+)(?: → ([^→]*))?$'`
against a (stripped) line: one of `d`/`r`/`c`, a single space, a non-empty
arrow-free source, optionally ` → ` and an arrow-free destination. -/
def matchActionLine (line : String) : Option ActionRecord :=
  match line.data with
  | a :: ' ' :: rest =>
    if a == 'd' || a == 'r' || a == 'c' then
      match splitFirstArrow rest with
      | none => if rest.isEmpty then none else some ⟨a, ⟨rest⟩, none⟩
      | some pq =>
        match pq.1.getLast?, pq.2 with
        | some ' ', ' ' :: dstChars =>
          if pq.1.dropLast.isEmpty || dstChars.contains '→' then none
          else some ⟨a, ⟨pq.1.dropLast⟩, some ⟨dstChars⟩⟩
        | _, _ => none
    else none
  | _ => none

/-- The match of `WORKING_DIR_REGEX = r'^\s*#\s*workdir:\s*(\S+)$'`. -/
def matchWorkdir (line : String) : Option String :=
  match line.data.dropWhile Char.isWhitespace with
  | '#' :: rest =>
    let r2 := rest.dropWhile Char.isWhitespace
    if r2.take 8 = "workdir:".data then
      let r3 := (r2.drop 8).dropWhile Char.isWhitespace
      if r3.isEmpty || r3.any Char.isWhitespace then none else some ⟨r3⟩
    else none
  | _ => none

/-- The ambient inputs of a non-interactive parse: the live filesystem
probed by `Path.add`, the current working directory, and the reply the
user would give to the workdir-mismatch confirmation prompt. -/
structure ParseCfg where
  fs : Fs
  curWorkdir : String
  confirmResponse : String
deriving DecidableEq

/-- The parser state: the accumulating `Path.paths` list, the process-wide
`failed_actions` accumulator, the lines specially reported for containing
the arrow glyph, and whether a workdir provenance line was seen. -/
structure ParseState where
  entities : List Entity := []
  failed : List FailedAction := []
  arrowFlagged : List String := []
  workdirSeen : Option String := none
deriving DecidableEq

/-- `if not line or line[0] == '#'`: blank or comment line. -/
def isBlankOrComment (s : String) : Bool :=
  match s.data with
  | [] => true
  | c :: _ => c == '#'

/-- `Path.get`: index of the first tracked entity whose `path.name` equals
the given source field (`None` when no entity matches). -/
def entFindIdx (es : List Entity) (src : String) : Option Nat :=
  match es with
  | [] => none
  | e :: rest =>
    if entityName e.path == src then some 0 else (entFindIdx rest src).map (· + 1)

/-- Replace the entity at index `i` by `f` of it (in-place mutation of the
found object in the source). -/
def modifyAt (es : List Entity) (i : Nat) (f : Entity → Entity) : List Entity :=
  match es, i with
  | [], _ => []
  | e :: rest, 0 => f e :: rest
  | e :: rest, (i+1) => e :: modifyAt rest i f

/-- Application of one parsed record to its entity: `r` sets the intended
path, `c` defaults the intended path to the entity's own source field and
appends the copy target, `d` leaves the entity as it is. -/
def updateRecord (tag : Char) (src : String) (dst : Option String) (e : Entity) : Entity :=
  if tag == 'r' then { e with newpath := some (normalize (dst.getD "")) }
  else if tag == 'c' then
    { e with newpath := if e.newpath.isNone then some (normalize src) else e.newpath,
             copies := e.copies ++ [normalize (dst.getD "")] }
  else e

/-- Process one parsed record: look the source up by `Path.get`, creating
the entity via `Path.add` when absent (`Path.add` aborts the run when the
source does not exist on the filesystem — `sys.exit` with a message exits
with code 1).  An `r`/`c` record with no destination field crashes the
source program (`pathlib.Path(None)` raises), modelled as exit code 1. -/
def applyRecord (cfg : ParseCfg) (st : ParseState) (rec : ActionRecord) :
    Except Nat ParseState :=
  if (rec.tag == 'r' || rec.tag == 'c') && rec.dst.isNone then .error 1
  else
    match entFindIdx st.entities rec.src with
    | some i =>
      .ok { st with entities := modifyAt st.entities i (updateRecord rec.tag rec.src rec.dst) }
    | none =>
      if cfg.fs.existsAt (normalize rec.src) then
        .ok { st with entities := st.entities ++
          [updateRecord rec.tag rec.src rec.dst (mkEntity cfg.fs (normalize rec.src))] }
      else .error 1

/-- Process one line of an actions file: workdir provenance checks first
(duplicate provenance exits with code 2; a declined mismatch confirmation
exits cleanly with code 0), then blank/comment skipping, then the action
regex; an unparsable line is recorded in `failed_actions` (flagged
specially when it contains the arrow glyph) and parsing continues. -/
def processLine (cfg : ParseCfg) (st : ParseState) (line : String) :
    Except Nat ParseState :=
  let step1 : Except Nat ParseState :=
    match matchWorkdir line with
    | some wd =>
      match st.workdirSeen with
      | some _ => .error 2
      | none =>
        if wd != cfg.curWorkdir && cfg.confirmResponse != "y" && cfg.confirmResponse != "Y" then
          .error 0
        else .ok { st with workdirSeen := some wd }
    | none => .ok st
  match step1 with
  | .error code => .error code
  | .ok st1 =>
    let stripped := lstripStr line
    if isBlankOrComment stripped then .ok st1
    else
      match matchActionLine stripped with
      | none =>
        .ok { st1 with
          failed := st1.failed ++ [.raw stripped],
          arrowFlagged := st1.arrowFlagged ++
            (if stripped.data.contains '→' then [stripped] else []) }
      | some rec => applyRecord cfg st1 rec

/-- `Path.read_actionsfile`: fold the per-line processing over the file. -/
def read_actionsfile (cfg : ParseCfg) (lines : List String) : Except Nat ParseState :=
  lines.foldlM (processLine cfg) {}

/-! ### The non-interactive run (`run_noninteractively` + `perform_actions`) -/

/-- The observable outcome of a non-interactive invocation: either a
termination before any filesystem mutation (with its exit code and the
untouched filesystem), or a completed engine run. -/
inductive RunOutcome where
  | earlyExit : Nat → Fs → RunOutcome
  | completed : RunResult → RunOutcome
deriving DecidableEq

def RunOutcome.exitCode : RunOutcome → Nat
  | .earlyExit code _ => code
  | .completed r => r.status

def RunOutcome.recoveryLines : RunOutcome → Option (List String)
  | .earlyExit _ _ => none
  | .completed r => r.recovery

/-- A non-interactive run: a missing actions file exits with code 3 before
any mutation; otherwise the file is parsed and the engine is run with the
parse's entities, the `failed_actions` accumulator carrying over any
unparsable-line records. -/
def edirNoninteractive (recurse : Bool) (workdir : String) (cfg : ParseCfg)
    (actionsFileContent : Option (List String)) : RunOutcome :=
  match actionsFileContent with
  | none => .earlyExit 3 cfg.fs
  | some lines =>
    match read_actionsfile cfg lines with
    | .error code => .earlyExit code cfg.fs
    | .ok pst =>
      .completed (perform_actions recurse workdir { fs := cfg.fs, failed := pst.failed }
        pst.entities)

/-! ### Interactive listing read-back (`Path.readfile`) -/

/-- Magnitude of a digit string (also reused to define `parsePyInt`). -/
def natOfDigits (ds : List Char) : Nat := digitsVal ds

/-- Python `int(s)` on a whitespace-free token: optional sign and decimal
digits (exotic forms such as underscore grouping are not modelled). -/
def parsePyInt (s : String) : Option Int :=
  match s.data with
  | '-' :: ds =>
    if !ds.isEmpty && ds.all Char.isDigit then some (-(natOfDigits ds : Int)) else none
  | '+' :: ds =>
    if !ds.isEmpty && ds.all Char.isDigit then some ((natOfDigits ds : Int)) else none
  | ds =>
    if !ds.isEmpty && ds.all Char.isDigit then some ((natOfDigits ds : Int)) else none

/-- `pathstr.rstrip('/')`. -/
def rstripSlashes (s : String) : String :=
  ⟨(s.data.reverse.dropWhile (fun c => c == '/')).reverse⟩

/-- One line of `Path.readfile`: skip blanks and comments; split off the
leading number (`split(maxsplit=1)` failing is a fatal parse error, as is
a non-integer number or a number outside `1..len(paths)`); record the
remaining text as the selected entity's new path, or as an extra copy
target when the entity already has one. -/
def readfileLine (es : List Entity) (line : String) : Except String (List Entity) :=
  let stripped := lstripStr line
  if isBlankOrComment stripped then .ok es
  else
    let nTok : String := ⟨stripped.data.takeWhile (fun c => !c.isWhitespace)⟩
    let restPart : List Char :=
      (stripped.data.dropWhile (fun c => !c.isWhitespace)).dropWhile Char.isWhitespace
    if restPart.isEmpty then .error "invalid line"
    else
      match parsePyInt nTok with
      | none => .error "invalid number"
      | some num =>
        if num ≤ 0 || num > es.length then .error "number out of range"
        else
          let pathstr0 : String := ⟨restPart⟩
          let pathstr := if pathstr0.length > 1 then rstripSlashes pathstr0 else pathstr0
          let np := normalize pathstr
          .ok (modifyAt es (num.toNat - 1) (fun e =>
            match e.newpath with
            | some _ => if np ≠ e.path then { e with copies := e.copies ++ [np] } else e
            | none => { e with newpath := some np }))

/-- `Path.readfile`: read the user-edited listing back; any line error is
fatal to the invocation. -/
def readfile (es : List Entity) (lines : List String) : Except String (List Entity) :=
  lines.foldlM readfileLine es

/-! ### Basic consequences of the engine definition -/

theorem perform_actions_result (recurse : Bool) (workdir : String) (st : RunState)
    (es : List Entity) :
    (perform_actions recurse workdir st es).status =
      statusOf (perform_actions recurse workdir st es).state.applied
        (perform_actions recurse workdir st es).state.failed ∧
    (perform_actions recurse workdir st es).recovery =
      (if (perform_actions recurse workdir st es).state.failed.isEmpty then none
       else some (actionsFileHeaderLines workdir ++
         (perform_actions recurse workdir st es).state.failed.map renderFailed)) :=
  ⟨rfl, rfl⟩

theorem statusOf_spec (a : List AppliedAction) (f : List FailedAction) :
    (statusOf a f = 0 ↔ f = []) ∧ (statusOf a f = 1 ↔ f ≠ [] ∧ a ≠ []) ∧
    (statusOf a f = 2 ↔ f ≠ [] ∧ a = []) := by
  cases f <;> cases a <;> simp [statusOf]

/-! ### Claim theorems -/

/-- C4: for every input path, the unique-name resolver returns the path
unchanged when no filesystem object occupies it; otherwise it returns the
first free candidate of the sequence `path`, `name~`, `name~1`, `name~2`, …
(`cand p 0 = p` and `cand p (k+1)` replaces the final segment by
`candName (lastName p) (k+1)`, i.e. appends the suffixes `~`, `~1`, `~2`, …
to the input's final segment); in all cases the result collides with no
occupied path. -/
theorem claim4_resolver_unique (occ : List FPath) (p : FPath) :
    (p ∉ occ → inc_path occ p = p) ∧
    (∃ m, inc_path occ p = cand p m ∧ cand p m ∉ occ ∧ ∀ i < m, cand p i ∈ occ) ∧
    inc_path occ p ∉ occ :=
  ⟨inc_path_eq_self occ p, inc_path_spec occ p, inc_path_not_mem occ p⟩

/-- Witness for C4 at a concrete occupancy list: `x` and `x~` are occupied,
so the resolver yields `x~1`, which is free; an unoccupied name comes back
unchanged. -/
theorem claim4_witness :
    inc_path [["x"], ["x~"]] (["x"] : FPath) ∉ [(["x"] : FPath), ["x~"]] ∧
    inc_path [["x"], ["x~"]] (["x"] : FPath) = ["x~1"] ∧
    inc_path [["x"], ["x~"]] (["y"] : FPath) = ["y"] :=
  ⟨(claim4_resolver_unique [["x"], ["x~"]] ["x"]).2.2, by decide,
    (claim4_resolver_unique [["x"], ["x~"]] ["y"]).1 (by decide)⟩

/-- C2: the exit status of the engine is 0 iff the failed sequence is
empty, 1 iff both sequences are non-empty, and 2 iff the failed sequence
is non-empty and the applied one empty; and a non-interactive run whose
actions file does not exist terminates before any mutation (the
filesystem of the outcome is the input filesystem) with exit code 3,
which is distinct from 0, 1 and 2. -/
theorem claim2_exit_status (recurse : Bool) (workdir : String) (st : RunState)
    (es : List Entity) (cfg : ParseCfg) :
    ((perform_actions recurse workdir st es).status = 0 ↔
      (perform_actions recurse workdir st es).state.failed = []) ∧
    ((perform_actions recurse workdir st es).status = 1 ↔
      (perform_actions recurse workdir st es).state.failed ≠ [] ∧
      (perform_actions recurse workdir st es).state.applied ≠ []) ∧
    ((perform_actions recurse workdir st es).status = 2 ↔
      (perform_actions recurse workdir st es).state.failed ≠ [] ∧
      (perform_actions recurse workdir st es).state.applied = []) ∧
    edirNoninteractive recurse workdir cfg none = .earlyExit 3 cfg.fs ∧
    ((3 : Nat) ≠ 0 ∧ (3 : Nat) ≠ 1 ∧ (3 : Nat) ≠ 2) := by
  have hr := perform_actions_result recurse workdir st es
  have hs := statusOf_spec (perform_actions recurse workdir st es).state.applied
    (perform_actions recurse workdir st es).state.failed
  rw [hr.1]
  exact ⟨hs.1, hs.2.1, hs.2.2, rfl, by omega, by omega, by omega⟩

/-- C3: a recovery actions file is produced iff the failed sequence is
non-empty; when produced it is the fixed header followed by exactly one
line per failed operation in failure order; a failed delete renders as
`d <source>`, a failed rename as `r <source> → <destination>` and a failed
copy as `c <source> → <destination>`, the arrow surrounded by exactly one
space on each side. -/
theorem claim3_recovery_file (recurse : Bool) (workdir : String) (st : RunState)
    (es : List Entity) :
    ((perform_actions recurse workdir st es).recovery.isSome ↔
      (perform_actions recurse workdir st es).state.failed ≠ []) ∧
    ((perform_actions recurse workdir st es).state.failed ≠ [] →
      (perform_actions recurse workdir st es).recovery =
        some (actionsFileHeaderLines workdir ++
          (perform_actions recurse workdir st es).state.failed.map renderFailed)) ∧
    (∀ s, renderFailed (.op 'd' s none) = "d " ++ pathStr s) ∧
    (∀ s d, renderFailed (.op 'r' s (some d)) = "r " ++ pathStr s ++ " → " ++ pathStr d) ∧
    (∀ s d, renderFailed (.op 'c' s (some d)) = "c " ++ pathStr s ++ " → " ++ pathStr d) := by
  have hr := (perform_actions_result recurse workdir st es).2
  refine ⟨?_, ?_, fun s => rfl, fun s d => rfl, fun s d => rfl⟩
  · rw [hr]
    cases hf : (perform_actions recurse workdir st es).state.failed <;> simp [hf]
  · intro hne
    rw [hr]
    cases hf : (perform_actions recurse workdir st es).state.failed with
    | nil => exact absurd hf hne
    | cons x xs => simp [hf]

/-- Witness for C3: a run entered with one already-failed delete and no
entities keeps that failure, so the recovery file is written and consists
of the header plus the line `d f`. -/
theorem claim3_witness :
    (perform_actions false "/w" { fs := ⟨[], []⟩, failed := [.op 'd' [("f" : String)] none] } []).recovery
      = some (actionsFileHeaderLines "/w" ++ ["d f"]) := by
  have h := (claim3_recovery_file false "/w"
    { fs := ⟨[], []⟩, failed := [.op 'd' [("f" : String)] none] } []).2.1 (by decide)
  rw [h]
  rfl

theorem lstripStr_data (line : String) :
    (lstripStr line).data = line.data.dropWhile Char.isWhitespace := rfl

theorem isBlankOrComment_false_elim (s : String) (h : isBlankOrComment s = false) :
    ∃ c rest, s.data = c :: rest ∧ (c == '#') = false := by
  unfold isBlankOrComment at h
  cases hd : s.data with
  | nil => rw [hd] at h; simp at h
  | cons c rest => rw [hd] at h; exact ⟨c, rest, rfl, h⟩

/-- A line whose stripped form is neither blank nor a comment cannot match
the workdir provenance pattern (which demands a leading `#`). -/
theorem matchWorkdir_none_of_not_comment (line : String)
    (h : isBlankOrComment (lstripStr line) = false) : matchWorkdir line = none := by
  obtain ⟨c, rest, hd, hc⟩ := isBlankOrComment_false_elim _ h
  rw [lstripStr_data] at hd
  unfold matchWorkdir
  rw [hd]
  split
  · next heq =>
    exfalso
    injection heq with h1 h2
    rw [h1] at hc
    simp at hc
  · rfl

/-- C8: a non-blank, non-comment actions-file line that fails the
`^([drc]) ([^→]+)(?: → ([^→]*))?$` shape is recorded as an unparsable line
in the failed sequence (so parsing returns `.ok` and continues with the
remaining lines), is flagged specially exactly when it contains the arrow
glyph, and when its failed record is dumped to the recovery actions file
the written line is the recorded line itself — every arrow glyph in it
preserved literally. -/
theorem claim8_unparsable_line (cfg : ParseCfg) (st : ParseState) (line : String)
    (hbc : isBlankOrComment (lstripStr line) = false)
    (hbad : matchActionLine (lstripStr line) = none) :
    processLine cfg st line = .ok { st with
      failed := st.failed ++ [.raw (lstripStr line)],
      arrowFlagged := st.arrowFlagged ++
        (if (lstripStr line).data.contains '→' then [lstripStr line] else []) } ∧
    renderFailed (.raw (lstripStr line)) = lstripStr line := by
  refine ⟨?_, rfl⟩
  simp [processLine, matchWorkdir_none_of_not_comment line hbc, hbc, hbad]

/-- Witness for C8: the line `r file→2 → x` (arrow inside the source
filename) is unparsable, gets recorded and arrow-flagged, and its recovery
dump reproduces the recorded line with the glyphs intact. -/
theorem claim8_witness :
    processLine ⟨⟨[], []⟩, "/w", "y"⟩ {} "r file→2 → x" = .ok
      { entities := [], failed := [.raw "r file→2 → x"],
        arrowFlagged := ["r file→2 → x"], workdirSeen := none } ∧
    renderFailed (.raw "r file→2 → x") = "r file→2 → x" := by
  refine ⟨?_, (claim8_unparsable_line ⟨⟨[], []⟩, "/w", "y"⟩ {} "r file→2 → x"
    (by decide) (by decide)).2⟩
  have h := (claim8_unparsable_line ⟨⟨[], []⟩, "/w", "y"⟩ {} "r file→2 → x"
    (by decide) (by decide)).1
  rw [h]
  rfl

/-! ### Lookup stability during actions-file parsing (C5, C6) -/

theorem updateRecord_path (t : Char) (s : String) (d : Option String) (e : Entity) :
    (updateRecord t s d e).path = e.path := by
  unfold updateRecord
  split
  · rfl
  · split <;> rfl

theorem modifyAt_entFindIdx (f : Entity → Entity) (hf : ∀ e, (f e).path = e.path)
    (s : String) : ∀ (es : List Entity) (i : Nat),
    entFindIdx (modifyAt es i f) s = entFindIdx es s := by
  intro es
  induction es with
  | nil => intro i; rfl
  | cons e rest ih =>
    intro i
    cases i with
    | zero => simp [modifyAt, entFindIdx, hf e]
    | succ j => simp [modifyAt, entFindIdx, ih j]

theorem entFindIdx_append_some (s : String) :
    ∀ (es more : List Entity) (i : Nat), entFindIdx es s = some i →
      entFindIdx (es ++ more) s = some i := by
  intro es
  induction es with
  | nil => intro more i h; simp [entFindIdx] at h
  | cons e rest ih =>
    intro more i h
    rw [List.cons_append]
    unfold entFindIdx at h ⊢
    cases hn : (entityName e.path == s) with
    | true => simp only [hn, if_true] at h ⊢; exact h
    | false =>
      simp only [hn, Bool.false_eq_true, if_false] at h ⊢
      rcases Option.map_eq_some'.mp h with ⟨j, hj, hji⟩
      rw [ih more j hj]
      simpa using hji

theorem entFindIdx_append_new (s : String) (e : Entity)
    (he : (entityName e.path == s) = true) :
    ∀ (es : List Entity), entFindIdx es s = none →
      entFindIdx (es ++ [e]) s = some es.length := by
  intro es
  induction es with
  | nil => intro _; simp [entFindIdx, he]
  | cons e2 rest ih =>
    intro h
    rw [List.cons_append]
    unfold entFindIdx at h ⊢
    cases hn : (entityName e2.path == s) with
    | true => simp only [hn, if_true] at h; exact absurd h (by simp)
    | false =>
      simp only [hn, Bool.false_eq_true, if_false] at h ⊢
      rw [ih (by simpa using h)]
      simp

/-- C5 (counterexample): two records with the identical multi-segment
source string `dir/file1` do NOT accumulate onto one entity — `Path.get`
compares the source field against each entity's final path segment only,
so the second record misses the first record's entity and creates a
duplicate: the parse ends with two entities for one source string. -/
theorem claim5_counterexample :
    ((read_actionsfile ⟨⟨[(["dir","file1"],1)], [["dir"]]⟩, "/w", "y"⟩
        ["r dir/file1 → x", "r dir/file1 → y"]).toOption.map
      (fun st => st.entities.map (fun e => (e.path, e.newpath))))
      = some [(["dir","file1"], some ["x"]), (["dir","file1"], some ["y"])] := by
  decide

/-- C5 (amended): record accumulation is keyed on the final path segment:
a successfully processed record never changes which entity any source
resolves to (same index before and after), and once a record whose source
equals its own final segment (a plain one-segment name) has been
processed, that source resolves to an entity; hence all records with the
same single-segment source accumulate onto the same single entity, while
equal multi-segment sources may create duplicates. -/
theorem claim5_amended (cfg : ParseCfg) (st : ParseState) (rc : ActionRecord) :
    (∀ s i st', entFindIdx st.entities s = some i →
      applyRecord cfg st rc = .ok st' → entFindIdx st'.entities s = some i) ∧
    (∀ st', entityName (normalize rc.src) = rc.src →
      applyRecord cfg st rc = .ok st' → (entFindIdx st'.entities rc.src).isSome = true) := by
  constructor
  · intro s i st' hfind happ
    unfold applyRecord at happ
    split at happ
    · exact absurd happ (by simp)
    · split at happ
      · next j hj =>
        rw [Except.ok.injEq] at happ
        rw [← happ]
        rw [modifyAt_entFindIdx _ (fun e => updateRecord_path _ _ _ e) s]
        exact hfind
      · split at happ
        · rw [Except.ok.injEq] at happ
          rw [← happ]
          exact entFindIdx_append_some s st.entities _ i hfind
        · exact absurd happ (by simp)
  · intro st' hname happ
    unfold applyRecord at happ
    split at happ
    · exact absurd happ (by simp)
    · split at happ
      · next j hj =>
        rw [Except.ok.injEq] at happ
        rw [← happ]
        rw [modifyAt_entFindIdx _ (fun e => updateRecord_path _ _ _ e) rc.src, hj]
        rfl
      · next hnone =>
        split at happ
        · rw [Except.ok.injEq] at happ
          rw [← happ]
          rw [entFindIdx_append_new rc.src _
            (by rw [updateRecord_path]; simp [mkEntity, hname]) st.entities hnone]
          rfl
        · exact absurd happ (by simp)

/-- Witness for C5 (amended) at concrete inputs: after an `r file1 → x`
record has created the entity for the single-segment source `file1`, a
second record with the same source resolves to the same entity (index 0)
and the source resolves to an entity at all. -/
theorem claim5_witness :
    (∀ st', applyRecord ⟨⟨[(["file1"],1)], []⟩, "/w", "y"⟩
        { entities := [{ mkEntity ⟨[(["file1"],1)], []⟩ ["file1"] with newpath := some ["x"] }] }
        ⟨'r', "file1", some "y"⟩ = .ok st' →
      entFindIdx st'.entities "file1" = some 0) ∧
    (∀ st', applyRecord ⟨⟨[(["file1"],1)], []⟩, "/w", "y"⟩
        { entities := [{ mkEntity ⟨[(["file1"],1)], []⟩ ["file1"] with newpath := some ["x"] }] }
        ⟨'r', "file1", some "y"⟩ = .ok st' →
      (entFindIdx st'.entities "file1").isSome = true) :=
  ⟨fun st' h => (claim5_amended ⟨⟨[(["file1"],1)], []⟩, "/w", "y"⟩
      { entities := [{ mkEntity ⟨[(["file1"],1)], []⟩ ["file1"] with newpath := some ["x"] }] }
      ⟨'r', "file1", some "y"⟩).1 "file1" 0 st' (by decide) h,
   fun st' h => (claim5_amended ⟨⟨[(["file1"],1)], []⟩, "/w", "y"⟩
      { entities := [{ mkEntity ⟨[(["file1"],1)], []⟩ ["file1"] with newpath := some ["x"] }] }
      ⟨'r', "file1", some "y"⟩).2 st' (by decide) h⟩

theorem modifyAt_congr_id (f : Entity → Entity) (hf : ∀ e, f e = e) :
    ∀ (es : List Entity) (i : Nat), modifyAt es i f = es := by
  intro es
  induction es with
  | nil => intro i; rfl
  | cons e rest ih =>
    intro i
    cases i with
    | zero => simp [modifyAt, hf e]
    | succ j => simp [modifyAt, ih j]

/-- C6 (counterexample): the claim fails when another record for the same
source precedes the `d` record: after `r file1 → x` followed by `d file1`,
the entity for `file1` still carries the intended rename `x` — the `d`
record does not clear it. -/
theorem claim6_counterexample :
    ((read_actionsfile ⟨⟨[(["file1"],1)], []⟩, "/w", "y"⟩
        ["r file1 → x", "d file1"]).toOption.map
      (fun st => st.entities.map (fun e => (e.path, e.newpath))))
      = some [(["file1"], some ["x"])] := by
  decide

/-- C6 (amended): a `d` record creates/looks up the entity for its source
and modifies nothing on it: when the entity already exists the parse state
is returned unchanged (so any previously recorded rename persists, and any
following `r`/`c` record can still set one), and when it does not exist the
entity is created with no intended rename. -/
theorem claim6_amended (cfg : ParseCfg) (st : ParseState) (s : String) (dst : Option String) :
    (∀ i, entFindIdx st.entities s = some i →
      applyRecord cfg st ⟨'d', s, dst⟩ = .ok st) ∧
    (entFindIdx st.entities s = none → cfg.fs.existsAt (normalize s) = true →
      applyRecord cfg st ⟨'d', s, dst⟩ =
        .ok { st with entities := st.entities ++ [mkEntity cfg.fs (normalize s)] } ∧
      (mkEntity cfg.fs (normalize s)).newpath = none) := by
  constructor
  · intro i hfind
    unfold applyRecord
    rw [if_neg (by simp)]
    dsimp only
    rw [hfind]
    dsimp only
    rw [modifyAt_congr_id (updateRecord 'd' s dst) (fun e => rfl)]
  · intro hnone hex
    refine ⟨?_, rfl⟩
    unfold applyRecord
    rw [if_neg (by simp)]
    dsimp only
    rw [hnone]
    dsimp only
    rw [if_pos hex]
    rfl

/-- Witness for C6 (amended) at concrete inputs: a `d file1` record on a
state already holding the `file1` entity returns the state unchanged, and
on an empty state creates the entity with `newpath = none`. -/
theorem claim6_witness :
    (applyRecord ⟨⟨[(["file1"],1)], []⟩, "/w", "y"⟩
      { entities := [{ mkEntity ⟨[(["file1"],1)], []⟩ ["file1"] with newpath := some ["x"] }] }
      ⟨'d', "file1", none⟩ =
      .ok { entities := [{ mkEntity ⟨[(["file1"],1)], []⟩ ["file1"] with newpath := some ["x"] }] }) ∧
    (applyRecord ⟨⟨[(["file1"],1)], []⟩, "/w", "y"⟩ {} ⟨'d', "file1", none⟩ =
      .ok { entities := [mkEntity ⟨[(["file1"],1)], []⟩ ["file1"]] } ∧
      (mkEntity ⟨[(["file1"],1)], []⟩ ["file1"]).newpath = none) := by
  constructor
  · exact (claim6_amended ⟨⟨[(["file1"],1)], []⟩, "/w", "y"⟩
      { entities := [{ mkEntity ⟨[(["file1"],1)], []⟩ ["file1"] with newpath := some ["x"] }] }
      "file1" none).1 0 (by decide)
  · have h := (claim6_amended ⟨⟨[(["file1"],1)], []⟩, "/w", "y"⟩ {} "file1" none).2
      (by decide) (by decide)
    exact ⟨h.1.trans (by rfl), h.2⟩

/-! ### Fatal parse errors of the interactive listing (C7) -/

def isOkE {ε α : Type _} : Except ε α → Bool
  | .ok _ => true
  | .error _ => false

/-- Validity of one listing line against a batch of `n` entities: blank
and comment lines pass; otherwise the line must split into a number and a
path, the number must parse, and it must lie in `1..n`. -/
def readfileLineOk (n : Nat) (line : String) : Bool :=
  let stripped := lstripStr line
  if isBlankOrComment stripped then true
  else
    let restPart := (stripped.data.dropWhile (fun c => !c.isWhitespace)).dropWhile Char.isWhitespace
    if restPart.isEmpty then false
    else
      match parsePyInt ⟨stripped.data.takeWhile (fun c => !c.isWhitespace)⟩ with
      | none => false
      | some num => !(num ≤ 0 || num > (n : Int))

theorem modifyAt_length (f : Entity → Entity) :
    ∀ (es : List Entity) (i : Nat), (modifyAt es i f).length = es.length := by
  intro es
  induction es with
  | nil => intro i; rfl
  | cons e rest ih =>
    intro i
    cases i with
    | zero => rfl
    | succ j => simp [modifyAt, ih j]

theorem readfileLine_cases (es : List Entity) (line : String) :
    (readfileLineOk es.length line = false ∧ ∃ msg, readfileLine es line = .error msg) ∨
    (readfileLineOk es.length line = true ∧
      ∃ es', readfileLine es line = .ok es' ∧ es'.length = es.length) := by
  unfold readfileLine readfileLineOk
  by_cases h1 : isBlankOrComment (lstripStr line) = true
  · rw [if_pos h1, if_pos h1]
    exact Or.inr ⟨rfl, es, rfl, rfl⟩
  · rw [if_neg h1, if_neg h1]
    dsimp only
    by_cases h2 : (((lstripStr line).data.dropWhile (fun c => !c.isWhitespace)).dropWhile
        Char.isWhitespace).isEmpty = true
    · rw [if_pos h2, if_pos h2]
      exact Or.inl ⟨rfl, _, rfl⟩
    · rw [if_neg h2, if_neg h2]
      cases hp : parsePyInt ⟨(lstripStr line).data.takeWhile (fun c => !c.isWhitespace)⟩ with
      | none => exact Or.inl ⟨rfl, _, rfl⟩
      | some num =>
        dsimp only
        by_cases h3 : (num ≤ 0 || num > (es.length : Int)) = true
        · rw [if_pos h3]
          exact Or.inl ⟨by rw [h3]; rfl, _, rfl⟩
        · rw [if_neg h3]
          refine Or.inr ⟨by rw [Bool.not_eq_true] at h3; rw [h3]; rfl, _, rfl, ?_⟩
          exact modifyAt_length _ es (num.toNat - 1)

/-- C7 (counterexample): assigning the same new path `q` to two different
entities is NOT a fatal parse error — `readfile` succeeds and both
entities end up with the identical intended path.  (Out-of-range numbers
and malformed lines are fatal; see the amended theorem.) -/
theorem claim7_counterexample :
    (readfile [mkEntity ⟨[(["p1"],1),(["p2"],2)], []⟩ ["p1"],
               mkEntity ⟨[(["p1"],1),(["p2"],2)], []⟩ ["p2"]]
        ["1 q", "2 q"]).toOption.map (fun es => es.map (fun e => (e.path, e.newpath)))
      = some [(["p1"], some ["q"]), (["p2"], some ["q"])] := by
  decide

/-- C7 (amended): reading back the edited listing is fatal exactly when
some line violates the line format — a malformed line (no path part or a
non-integer number) or a number outside `1..(number of entities)`;
duplicate intended paths are not checked at parse time. -/
theorem claim7_amended (es : List Entity) (lines : List String) :
    isOkE (readfile es lines) = lines.all (readfileLineOk es.length) := by
  induction lines generalizing es with
  | nil => rfl
  | cons l rest ih =>
    rw [List.all_cons]
    show isOkE (List.foldlM readfileLine es (l :: rest)) = _
    rw [List.foldlM_cons]
    rcases readfileLine_cases es l with ⟨hok, msg, herr⟩ | ⟨hok, es', hes, hlen⟩
    · rw [herr, hok]
      rfl
    · rw [hes, hok]
      simp only [Bool.true_and]
      show isOkE (List.foldlM readfileLine es' rest) = _
      rw [← hlen]
      exact ih es'

/-! ### No-op entities (C9) -/

theorem foldStep_cons (f : RunState → Entity → RunState × Entity)
    (st : RunState) (e : Entity) (es : List Entity) :
    foldStep f st (e :: es) =
      ((foldStep f (f st e).1 es).1, (f st e).2 :: (foldStep f (f st e).1 es).2) := rfl

theorem foldStep_append (f : RunState → Entity → RunState × Entity)
    (st : RunState) (l1 l2 : List Entity) :
    foldStep f st (l1 ++ l2) =
      ((foldStep f (foldStep f st l1).1 l2).1,
        (foldStep f st l1).2 ++ (foldStep f (foldStep f st l1).1 l2).2) := by
  induction l1 generalizing st with
  | nil => simp [foldStep]
  | cons e es ih =>
    rw [List.cons_append, foldStep_cons, foldStep_cons, ih]
    rfl

/-- Iterating a pass over `l1 ++ e :: l2` when `e`'s step never changes
the run state: the final state is that of `l1 ++ l2`, and the output list
is the `l1 ++ l2` output with `e`'s (possibly relabelled) descendant
inserted in the middle. -/
theorem foldStep_noop_mid (f : RunState → Entity → RunState × Entity) (e : Entity)
    (hf : ∀ s, (f s e).1 = s) (st : RunState) (l1 l2 : List Entity) :
    (foldStep f st (l1 ++ e :: l2)).1 = (foldStep f st (l1 ++ l2)).1 ∧
    (foldStep f st (l1 ++ e :: l2)).2 =
      (foldStep f st l1).2 ++ (f (foldStep f st l1).1 e).2 ::
        (foldStep f (foldStep f st l1).1 l2).2 ∧
    (foldStep f st (l1 ++ l2)).2 =
      (foldStep f st l1).2 ++ (foldStep f (foldStep f st l1).1 l2).2 := by
  rw [foldStep_append f st l1 (e :: l2), foldStep_append f st l1 l2, foldStep_cons,
    hf (foldStep f st l1).1]
  exact ⟨rfl, rfl, rfl⟩

theorem pass1Step_noop (st : RunState) (e : Entity) (h1 : e.newpath = some e.path) :
    pass1Step st e =
      (st, { e with note := if e.is_dir && st.fs.hasChildren e.path then " recursively" else "" }) := by
  unfold pass1Step
  dsimp only
  rw [h1]
  dsimp only
  rw [if_pos rfl]

theorem pass2Step_skip (recurse : Bool) (st : RunState) (e : Entity)
    (h : e.newpath.isNone = false) : pass2Step recurse st e = (st, e) := by
  unfold pass2Step
  rw [h, Bool.and_false]
  rfl

theorem pass3Step_noop (st : RunState) (e : Entity)
    (h2 : e.copies = []) (h3 : e.temppath = none) : pass3Step st e = (st, e) := by
  unfold pass3Step restore_temp
  rw [h3]
  dsimp only
  rw [h2]
  rfl

theorem pass4Step_skip (recurse : Bool) (st : RunState) (e : Entity)
    (h : e.newpath.isNone = false) : pass4Step recurse st e = (st, e) := by
  unfold pass4Step
  rw [h, Bool.and_false]
  rfl

/-- C9: an entity whose intended path equals its current path and whose
copy-target sequence is empty contributes nothing to a run: inserting it
anywhere into the batch leaves the final run state (filesystem, applied
sequence, failed sequence), the exit status and the recovery file exactly
as they are without it — no filesystem operation, no applied or failed
record, and hence no report line (the report is generated from the
applied sequence) come from it. -/
theorem claim9_noop_entity (recurse : Bool) (workdir : String) (st : RunState)
    (l1 l2 : List Entity) (e : Entity)
    (h1 : e.newpath = some e.path) (h2 : e.copies = []) (h3 : e.temppath = none) :
    (perform_actions recurse workdir st (l1 ++ e :: l2)).state =
      (perform_actions recurse workdir st (l1 ++ l2)).state ∧
    (perform_actions recurse workdir st (l1 ++ e :: l2)).status =
      (perform_actions recurse workdir st (l1 ++ l2)).status ∧
    (perform_actions recurse workdir st (l1 ++ e :: l2)).recovery =
      (perform_actions recurse workdir st (l1 ++ l2)).recovery := by
  have hkey : (engineRun recurse st (l1 ++ e :: l2)).1 =
      (engineRun recurse st (l1 ++ l2)).1 := by
    unfold engineRun
    dsimp only
    -- pass 1
    have hf1 : ∀ s, (pass1Step s e).1 = s := fun s => by rw [pass1Step_noop s e h1]
    obtain ⟨hs1, hl1, hl1o⟩ := foldStep_noop_mid pass1Step e hf1 st l1 l2
    rw [hs1, hl1, hl1o]
    rw [pass1Step_noop _ e h1]
    dsimp only
    -- the relabelled descendant of e
    set ne := { e with note :=
      if e.is_dir && (foldStep pass1Step st l1).1.fs.hasChildren e.path
      then " recursively" else "" } with hne
    have hnp : ne.newpath = some ne.path := h1
    have hnpn : ne.newpath.isNone = false := by rw [hnp]; rfl
    have hnc : ne.copies = [] := h2
    have hnt : ne.temppath = none := h3
    -- pass 2
    have hf2 : ∀ s, (pass2Step recurse s ne).1 = s := fun s => by
      rw [pass2Step_skip recurse s ne hnpn]
    obtain ⟨hs2, hl2, hl2o⟩ := foldStep_noop_mid (pass2Step recurse) ne hf2
      (foldStep pass1Step st (l1 ++ l2)).1 (foldStep pass1Step st l1).2
      (foldStep pass1Step (foldStep pass1Step st l1).1 l2).2
    rw [hs2, hl2, hl2o]
    rw [pass2Step_skip recurse _ ne hnpn]
    dsimp only
    -- pass 3
    have hf3 : ∀ s, (pass3Step s ne).1 = s := fun s => by
      rw [pass3Step_noop s ne hnc hnt]
    obtain ⟨hs3, hl3, hl3o⟩ := foldStep_noop_mid pass3Step ne hf3 _ _ _
    rw [hs3, hl3, hl3o]
    rw [pass3Step_noop _ ne hnc hnt]
    dsimp only
    -- pass 4
    have hf4 : ∀ s, (pass4Step recurse s ne).1 = s := fun s => by
      rw [pass4Step_skip recurse s ne hnpn]
    obtain ⟨hs4, _, _⟩ := foldStep_noop_mid (pass4Step recurse) ne hf4 _ _ _
    rw [hs4]
  refine ⟨hkey, ?_, ?_⟩
  · show statusOf (engineRun recurse st (l1 ++ e :: l2)).1.applied
        (engineRun recurse st (l1 ++ e :: l2)).1.failed = _
    rw [hkey]
    rfl
  · show (if (engineRun recurse st (l1 ++ e :: l2)).1.failed.isEmpty then _ else _) = _
    rw [hkey]
    rfl

/-- Witness for C9 at a concrete batch: inserting the no-op entity for
`file3` (intended path equal to its current path, no copies) between two
real operations changes neither the final state nor the status nor the
recovery file. -/
theorem claim9_witness :
    (perform_actions false "/w" { fs := ⟨[(["file1"],1),(["file3"],3)], []⟩ }
        [mkEntity ⟨[(["file1"],1),(["file3"],3)], []⟩ ["file1"],
         { mkEntity ⟨[(["file1"],1),(["file3"],3)], []⟩ ["file3"] with newpath := some ["file3"] }]).state =
      (perform_actions false "/w" { fs := ⟨[(["file1"],1),(["file3"],3)], []⟩ }
        [mkEntity ⟨[(["file1"],1),(["file3"],3)], []⟩ ["file1"]]).state := by
  have h := (claim9_noop_entity false "/w" { fs := ⟨[(["file1"],1),(["file3"],3)], []⟩ }
    [mkEntity ⟨[(["file1"],1),(["file3"],3)], []⟩ ["file1"]] []
    { mkEntity ⟨[(["file1"],1),(["file3"],3)], []⟩ ["file3"] with newpath := some ["file3"] }
    rfl rfl rfl).1
  simpa using h

/-! ### The failed sequence only grows (C10) -/

theorem rename_temp_failed (st : RunState) (e : Entity) :
    (rename_temp st e).2.1.failed = st.failed := by
  unfold rename_temp
  dsimp only
  cases hmk : st.fs.mkdirp ((e.newpath.getD []).dropLast ++ [TEMPDIR]) with
  | none => rfl
  | some fs1 => rfl

theorem restore_temp_failed (st : RunState) (e : Entity) :
    (restore_temp st e).2.1.failed = st.failed := by
  unfold restore_temp
  cases e.temppath with
  | none => rfl
  | some tp => rfl

theorem pass1Step_failed_mem (st : RunState) (e : Entity) (x : FailedAction)
    (hx : x ∈ st.failed) : x ∈ (pass1Step st e).1.failed := by
  unfold pass1Step
  dsimp only
  split
  · split
    · exact hx
    · split
      · next st2 e2 heq =>
        have h3 := congrArg (fun q => q.2.1.failed) heq
        dsimp only at h3
        rw [rename_temp_failed] at h3
        dsimp only
        simp only [List.mem_append]
        exact Or.inl (h3 ▸ hx)
      · next st2 e2 heq =>
        have h3 := congrArg (fun q => q.2.1.failed) heq
        dsimp only at h3
        rw [rename_temp_failed] at h3
        dsimp only
        exact h3 ▸ hx
  · split
    · split
      · simp only [List.mem_append]; exact Or.inl hx
      · exact hx
    · exact hx

theorem pass2Step_failed_mem (recurse : Bool) (st : RunState) (e : Entity)
    (x : FailedAction) (hx : x ∈ st.failed) : x ∈ (pass2Step recurse st e).1.failed := by
  unfold pass2Step
  split
  · split
    · exact hx
    · exact hx
  · exact hx

theorem foldl_failed_mem {α : Type} (g : RunState → α → RunState)
    (hg : ∀ acc c x, x ∈ acc.failed → x ∈ (g acc c).failed) :
    ∀ (cs : List α) (acc : RunState) (x : FailedAction), x ∈ acc.failed →
      x ∈ (cs.foldl g acc).failed := by
  intro cs
  induction cs with
  | nil => intro acc x hx; exact hx
  | cons c rest ih =>
    intro acc x hx
    rw [List.foldl_cons]
    exact ih (g acc c) x (hg acc c x hx)

theorem pass3Step_failed_mem (st : RunState) (e : Entity) (x : FailedAction)
    (hx : x ∈ st.failed) : x ∈ (pass3Step st e).1.failed := by
  unfold pass3Step
  dsimp only
  refine foldl_failed_mem _ ?_ _ _ x ?_
  · intro acc c y hy
    dsimp only
    cases copyEntity acc.fs (restore_temp st e).2.2 c with
    | error msg => simp only [List.mem_append]; exact Or.inl hy
    | ok fs2 => exact hy
  · split
    · dsimp only
      rw [restore_temp_failed]
      exact hx
    · rw [restore_temp_failed]
      exact hx

theorem pass4Step_failed_mem (recurse : Bool) (st : RunState) (e : Entity)
    (x : FailedAction) (hx : x ∈ st.failed) : x ∈ (pass4Step recurse st e).1.failed := by
  unfold pass4Step
  split
  · split
    · simp only [List.mem_append]; exact Or.inl hx
    · exact hx
  · exact hx

theorem foldStep_failed_mem (f : RunState → Entity → RunState × Entity)
    (hf : ∀ s e x, x ∈ s.failed → x ∈ (f s e).1.failed) (x : FailedAction) :
    ∀ (es : List Entity) (st : RunState), x ∈ st.failed →
      x ∈ (foldStep f st es).1.failed := by
  intro es
  induction es with
  | nil => intro st hx; exact hx
  | cons e rest ih =>
    intro st hx
    rw [foldStep_cons]
    exact ih (f st e).1 (hf st e x hx)

theorem remove_temps_failed (st : RunState) : (remove_temps st).failed = st.failed := rfl

/-- Every element of the failed sequence at engine entry is still in the
failed sequence when the engine returns. -/
theorem engineRun_failed_mem (recurse : Bool) (st : RunState) (es : List Entity)
    (x : FailedAction) (hx : x ∈ st.failed) :
    x ∈ (engineRun recurse st es).1.failed := by
  unfold engineRun
  dsimp only
  apply foldStep_failed_mem _ (pass4Step_failed_mem recurse)
  rw [remove_temps_failed]
  apply foldStep_failed_mem _ pass3Step_failed_mem
  apply foldStep_failed_mem _ (pass2Step_failed_mem recurse)
  exact foldStep_failed_mem _ pass1Step_failed_mem x es st hx

theorem applyRecord_failed (cfg : ParseCfg) (st : ParseState) (rc : ActionRecord)
    (st' : ParseState) (h : applyRecord cfg st rc = .ok st') :
    st'.failed = st.failed := by
  unfold applyRecord at h
  split at h
  · exact absurd h (by simp)
  · split at h
    · rw [Except.ok.injEq] at h
      rw [← h]
    · split at h
      · rw [Except.ok.injEq] at h
        rw [← h]
      · exact absurd h (by simp)

theorem processLine_tail_failed_mem (cfg : ParseCfg) (st1 st' : ParseState) (line : String)
    (h : (if isBlankOrComment (lstripStr line) then Except.ok st1
      else
        match matchActionLine (lstripStr line) with
        | none =>
          Except.ok { st1 with
            failed := st1.failed ++ [.raw (lstripStr line)],
            arrowFlagged := st1.arrowFlagged ++
              (if (lstripStr line).data.contains '→' then [lstripStr line] else []) }
        | some rc => applyRecord cfg st1 rc) = .ok st')
    (x : FailedAction) (hx : x ∈ st1.failed) : x ∈ st'.failed := by
  split at h
  · rw [Except.ok.injEq] at h; rw [← h]; exact hx
  · split at h
    · rw [Except.ok.injEq] at h
      rw [← h]
      dsimp only
      simp only [List.mem_append]
      exact Or.inl hx
    · rw [applyRecord_failed _ _ _ _ h]
      exact hx

theorem processLine_failed_mem (cfg : ParseCfg) (st : ParseState) (line : String)
    (st' : ParseState) (h : processLine cfg st line = .ok st') (x : FailedAction)
    (hx : x ∈ st.failed) : x ∈ st'.failed := by
  unfold processLine at h
  cases hwd : matchWorkdir line with
  | some wd =>
    rw [hwd] at h
    dsimp only at h
    cases hseen : st.workdirSeen with
    | some w =>
      rw [hseen] at h
      exact absurd h (by simp)
    | none =>
      rw [hseen] at h
      dsimp only at h
      split at h
      · exact absurd h (by simp)
      · next st1 heq =>
        split at heq
        · exact absurd heq (by simp)
        · rw [Except.ok.injEq] at heq
          subst heq
          have hx2 : x ∈ ({ st with workdirSeen := some wd } : ParseState).failed := hx
          exact processLine_tail_failed_mem cfg _ st' line h x hx2
  | none =>
    rw [hwd] at h
    dsimp only at h
    exact processLine_tail_failed_mem cfg st st' line h x hx

theorem parse_fold_failed_mem (cfg : ParseCfg) (x : FailedAction) :
    ∀ (lines : List String) (st pst : ParseState),
      List.foldlM (processLine cfg) st lines = .ok pst →
      x ∈ st.failed → x ∈ pst.failed := by
  intro lines
  induction lines with
  | nil =>
    intro st pst h hx
    have h2 : Except.ok st = Except.ok pst := h
    rw [Except.ok.injEq] at h2
    rw [← h2]; exact hx
  | cons l rest ih =>
    intro st pst h hx
    rw [List.foldlM_cons] at h
    cases hstep : processLine cfg st l with
    | error c =>
      rw [hstep] at h
      have h2 : (Except.error c : Except Nat ParseState) = .ok pst := h
      exact absurd h2 (by simp)
    | ok st1 =>
      rw [hstep] at h
      have h2 : List.foldlM (processLine cfg) st1 rest = .ok pst := h
      exact ih st1 pst h2 (processLine_failed_mem cfg st l st1 hstep x hx)

/-- A successfully parsed actions file records every unparsable
non-comment, non-blank line (in stripped form) in the failed sequence. -/
theorem read_actionsfile_raw_mem (cfg : ParseCfg) (line : String)
    (hbc : isBlankOrComment (lstripStr line) = false)
    (hbad : matchActionLine (lstripStr line) = none) :
    ∀ (lines : List String) (st pst : ParseState),
      List.foldlM (processLine cfg) st lines = .ok pst → line ∈ lines →
      FailedAction.raw (lstripStr line) ∈ pst.failed := by
  intro lines
  induction lines with
  | nil => intro st pst _ hm; exact absurd hm (List.not_mem_nil line)
  | cons l rest ih =>
    intro st pst h hm
    rw [List.foldlM_cons] at h
    cases hstep : processLine cfg st l with
    | error c =>
      rw [hstep] at h
      have h2 : (Except.error c : Except Nat ParseState) = .ok pst := h
      exact absurd h2 (by simp)
    | ok st1 =>
      rw [hstep] at h
      have h2 : List.foldlM (processLine cfg) st1 rest = .ok pst := h
      rcases List.mem_cons.mp hm with heq | hmr
      · subst heq
        have hline := (claim8_unparsable_line cfg st line hbc hbad).1
        rw [hline, Except.ok.injEq] at hstep
        have hmem : FailedAction.raw (lstripStr line) ∈ st1.failed := by
          rw [← hstep]
          simp
        exact parse_fold_failed_mem cfg _ rest st1 pst h2 hmem
      · exact ih st1 pst h2 hmr

/-- C10 (counterexample), refuting two aspects of the claim as stated.
First, on the actions file with the single line `"  @ bad"` (unparsable,
with leading whitespace) the run does exit non-zero and does write a
recovery file — but the file contains the line with its leading whitespace
stripped (`"@ bad"`), not reproduced verbatim.  Second, an actions file
containing an unparsable line together with a record whose source does not
exist aborts the whole run (exit 1 from `Path.add`) before `perform_actions`
ever runs, so no recovery file is written at all. -/
theorem claim10_counterexample :
    ((edirNoninteractive false "/w" ⟨⟨[], []⟩, "/w", "y"⟩ (some ["  @ bad"])).exitCode ≠ 0 ∧
     (edirNoninteractive false "/w" ⟨⟨[], []⟩, "/w", "y"⟩
        (some ["  @ bad"])).recoveryLines.isSome = true ∧
     ((edirNoninteractive false "/w" ⟨⟨[], []⟩, "/w", "y"⟩
        (some ["  @ bad"])).recoveryLines.getD []).contains "  @ bad" = false ∧
     ((edirNoninteractive false "/w" ⟨⟨[], []⟩, "/w", "y"⟩
        (some ["  @ bad"])).recoveryLines.getD []).contains "@ bad" = true) ∧
    edirNoninteractive false "/w" ⟨⟨[], []⟩, "/w", "y"⟩
      (some ["@ unparsable", "d missingfile"]) = .earlyExit 1 ⟨[], []⟩ := by
  refine ⟨⟨by decide, by decide, by decide, by decide⟩, by decide⟩

/-- C10 (amended): for every actions file whose parse completes, each
unparsable non-comment, non-blank line makes the run exit non-zero and
appear — with leading whitespace stripped but otherwise byte-for-byte —
in the recovery actions file that is then always written, even when every
parsed filesystem operation succeeds. -/
theorem claim10_amended (recurse : Bool) (workdir : String) (cfg : ParseCfg)
    (lines : List String) (line : String) (pst : ParseState)
    (hmem : line ∈ lines)
    (hbc : isBlankOrComment (lstripStr line) = false)
    (hbad : matchActionLine (lstripStr line) = none)
    (hok : read_actionsfile cfg lines = .ok pst) :
    edirNoninteractive recurse workdir cfg (some lines) =
      .completed (perform_actions recurse workdir
        { fs := cfg.fs, failed := pst.failed } pst.entities) ∧
    (perform_actions recurse workdir
      { fs := cfg.fs, failed := pst.failed } pst.entities).status ≠ 0 ∧
    (perform_actions recurse workdir
      { fs := cfg.fs, failed := pst.failed } pst.entities).recovery.isSome = true ∧
    (∀ L, (perform_actions recurse workdir
      { fs := cfg.fs, failed := pst.failed } pst.entities).recovery = some L →
        lstripStr line ∈ L) := by
  have hraw : FailedAction.raw (lstripStr line) ∈ pst.failed :=
    read_actionsfile_raw_mem cfg line hbc hbad lines {} pst hok hmem
  have hfin : FailedAction.raw (lstripStr line) ∈
      (engineRun recurse { fs := cfg.fs, failed := pst.failed } pst.entities).1.failed :=
    engineRun_failed_mem recurse _ pst.entities _ hraw
  have hfailne : (perform_actions recurse workdir
      { fs := cfg.fs, failed := pst.failed } pst.entities).state.failed ≠ [] :=
    List.ne_nil_of_mem hfin
  refine ⟨?_, ?_, ?_, ?_⟩
  · unfold edirNoninteractive
    dsimp only
    rw [hok]
  · intro h0
    exact hfailne (((statusOf_spec _ _).1).mp
      ((perform_actions_result recurse workdir _ _).1 ▸ h0))
  · rw [((claim3_recovery_file recurse workdir
      { fs := cfg.fs, failed := pst.failed } pst.entities).2.1 hfailne)]
    rfl
  · intro L hL
    rw [((claim3_recovery_file recurse workdir
      { fs := cfg.fs, failed := pst.failed } pst.entities).2.1 hfailne)] at hL
    rw [Option.some.injEq] at hL
    rw [← hL]
    refine List.mem_append_right _ ?_
    have : renderFailed (FailedAction.raw (lstripStr line)) = lstripStr line := rfl
    rw [← this]
    exact List.mem_map_of_mem renderFailed hfin

/-- Witness for C10 (amended) at a concrete input: the actions file
`["@ bad", "d f"]` parses (`d f` deletes the existing file `f`); the run
completes with a non-zero status and a recovery file. -/
theorem claim10_witness :
    (perform_actions false "/w" { fs := ⟨[(["f"],1)], []⟩, failed := [.raw "@ bad"] }
      [mkEntity ⟨[(["f"],1)], []⟩ ["f"]]).status ≠ 0 ∧
    (perform_actions false "/w" { fs := ⟨[(["f"],1)], []⟩, failed := [.raw "@ bad"] }
      [mkEntity ⟨[(["f"],1)], []⟩ ["f"]]).recovery.isSome = true := by
  have h := claim10_amended false "/w" ⟨⟨[(["f"],1)], []⟩, "/w", "y"⟩ ["@ bad", "d f"]
    "@ bad"
    { entities := [mkEntity ⟨[(["f"],1)], []⟩ ["f"]], failed := [.raw "@ bad"],
      arrowFlagged := [], workdirSeen := none }
    (by decide) (by decide) (by decide) (by rfl)
  exact ⟨h.2.1, h.2.2.1⟩

/-! ### Staging safety for swaps (C1) -/

theorem eq_dropLast_lastName (p : FPath) (h : p ≠ []) :
    p.dropLast ++ [lastName p] = p := by
  unfold lastName
  rw [List.getLast?_eq_getLast p h]
  exact List.dropLast_append_getLast h

theorem lastName_mem (p : FPath) (h : p ≠ []) : lastName p ∈ p := by
  unfold lastName
  rw [List.getLast?_eq_getLast p h]
  exact List.getLast_mem h

theorem lastName_ne_tmp (p : FPath) (hp : p ≠ []) (hT : TEMPDIR ∉ p) :
    lastName p ≠ TEMPDIR := fun h => hT (h ▸ lastName_mem p hp)

theorem getLast?_append_singleton (l : List String) (x : String) :
    (l ++ [x]).getLast? = some x := by
  simp

theorem ne_of_getLast?_ne (p q : FPath) (h : p.getLast? ≠ q.getLast?) : p ≠ q :=
  fun he => h (he ▸ rfl)

theorem ne_of_tmp_mem {p q : FPath} (hp : TEMPDIR ∈ p) (hq : TEMPDIR ∉ q) : p ≠ q :=
  fun h => hq (h ▸ hp)

/-- `mkdirp` when no file occupies the path, written with the directory
registry update pushed inside. -/
theorem mkdirp_eq (fs : Fs) (p : FPath) (hnf : fs.hasFile p = false) :
    fs.mkdirp p =
      some { fs with dirs := if fs.dirs.contains p then fs.dirs else p :: fs.dirs } := by
  unfold Fs.mkdirp
  rw [hnf]
  simp only [Bool.false_eq_true, if_false]
  split
  · rfl
  · rfl

theorem not_mem_ite_cons {q : FPath} {ds1 ds2 : List FPath} {c : Prop} [Decidable c]
    (h1 : q ∉ ds1) (h2 : q ∉ ds2) :
    q ∉ (if c then ds1 else ds2) := by
  split
  · exact h1
  · exact h2

theorem underDir_mem_of_mem {d p : FPath} (h : underDir d p = true) {x : String}
    (hx : x ∈ d) : x ∈ p := by
  unfold underDir at h
  rw [Bool.and_eq_true] at h
  have h2 : p.take d.length = d := by
    have := h.2
    rwa [beq_iff_eq] at this
  have h3 : x ∈ p.take d.length := by rw [h2]; exact hx
  exact List.take_subset d.length p h3

/-- The holding-directory cleanup loop never touches a file whose path
stays clear of the holding directories (no `TEMPDIR` component). -/
theorem remove_temps_fold_files :
    ∀ (tds : List FPath), (∀ td ∈ tds, TEMPDIR ∈ td) →
      ∀ (fs : Fs), (∀ kv ∈ fs.files, TEMPDIR ∉ kv.1) →
      (tds.foldl (fun fs td =>
        match removeFs fs td true with
        | .ok fs2 => fs2
        | .error _ => fs) fs).files = fs.files := by
  intro tds
  induction tds with
  | nil => intro _ fs _; rfl
  | cons td rest ih =>
    intro hT fs hfiles
    rw [List.foldl_cons]
    have hkeep : ∀ kv ∈ fs.files, (!(kv.1 == td || underDir td kv.1)) = true := by
      intro kv hkv
      have hne : kv.1 ≠ td := fun h =>
        (hfiles kv hkv) (h ▸ hT td (List.mem_cons_self td rest))
      have hnu : underDir td kv.1 = false := by
        cases hu : underDir td kv.1 with
        | false => rfl
        | true =>
          exact absurd (underDir_mem_of_mem hu (hT td (List.mem_cons_self td rest)))
            (hfiles kv hkv)
      simp [hne, hnu]
    have hstep : (match removeFs fs td true with
        | .ok fs2 => fs2
        | .error _ => fs).files = fs.files := by
      unfold removeFs
      by_cases hex : fs.existsAt td = true
      · rw [if_pos hex]
        simp only [Bool.not_true, Bool.false_and, Bool.false_eq_true, if_false, if_true]
        show (fs.rmtreeAt td).files = fs.files
        unfold Fs.rmtreeAt
        exact List.filter_eq_self.mpr hkeep
      · rw [if_neg hex]
        simp
    have hfiles2 : ∀ kv ∈ (match removeFs fs td true with
        | .ok fs2 => fs2
        | .error _ => fs).files, TEMPDIR ∉ kv.1 := by
      rw [hstep]; exact hfiles
    rw [ih (fun td2 h2 => hT td2 (List.mem_cons_of_mem td h2)) _ hfiles2, hstep]


/-- Helper for C1: a two-entity swap batch (A renamed to B first) over a
filesystem holding A and B exchanges the two contents and records no
failure, provided A and B are nonempty, distinct, and neither path has a
`.tmp-edir` component. -/
theorem swap_run_ltr (A B : FPath) (a b : Nat) (d1 n1 d2 n2 : String)
    (hA : A ≠ []) (hB : B ≠ []) (hAB : A ≠ B)
    (hTA : TEMPDIR ∉ A) (hTB : TEMPDIR ∉ B) :
    ((engineRun false ⟨⟨[(A,a),(B,b)], []⟩, [], [], []⟩
        [⟨A, some B, none, [], false, d1, n1⟩, ⟨B, some A, none, [], false, d2, n2⟩]).1.fs.lookup B
      = some a) ∧
    ((engineRun false ⟨⟨[(A,a),(B,b)], []⟩, [], [], []⟩
        [⟨A, some B, none, [], false, d1, n1⟩, ⟨B, some A, none, [], false, d2, n2⟩]).1.fs.lookup A
      = some b) ∧
    ((engineRun false ⟨⟨[(A,a),(B,b)], []⟩, [], [], []⟩
        [⟨A, some B, none, [], false, d1, n1⟩, ⟨B, some A, none, [], false, d2, n2⟩]).1.failed
      = []) := by
  -- basic disequalities
  have hBA : ¬(B = A) := fun h => hAB h.symm
  have hTd1 : TEMPDIR ∈ B.dropLast ++ [TEMPDIR] := List.mem_append_right _ (by simp)
  have hTd2 : TEMPDIR ∈ A.dropLast ++ [TEMPDIR] := List.mem_append_right _ (by simp)
  have hTt1 : TEMPDIR ∈ B.dropLast ++ [TEMPDIR] ++ [lastName B] := List.mem_append_left _ hTd1
  have hTt2 : TEMPDIR ∈ A.dropLast ++ [TEMPDIR] ++ [lastName A] := List.mem_append_left _ hTd2
  have hlastB : lastName B ≠ TEMPDIR := lastName_ne_tmp B hB hTB
  have hlastA : lastName A ≠ TEMPDIR := lastName_ne_tmp A hA hTA
  -- A and B collide with none of the four temp paths
  have hAtd1 : A ≠ B.dropLast ++ [TEMPDIR] := (ne_of_tmp_mem hTd1 hTA).symm
  have hAtd2 : A ≠ A.dropLast ++ [TEMPDIR] := (ne_of_tmp_mem hTd2 hTA).symm
  have hAt1 : A ≠ B.dropLast ++ [TEMPDIR] ++ [lastName B] := (ne_of_tmp_mem hTt1 hTA).symm
  have hAt2 : A ≠ A.dropLast ++ [TEMPDIR] ++ [lastName A] := (ne_of_tmp_mem hTt2 hTA).symm
  have hBtd1 : B ≠ B.dropLast ++ [TEMPDIR] := (ne_of_tmp_mem hTd1 hTB).symm
  have hBtd2 : B ≠ A.dropLast ++ [TEMPDIR] := (ne_of_tmp_mem hTd2 hTB).symm
  have hBt1 : B ≠ B.dropLast ++ [TEMPDIR] ++ [lastName B] := (ne_of_tmp_mem hTt1 hTB).symm
  have hBt2 : B ≠ A.dropLast ++ [TEMPDIR] ++ [lastName A] := (ne_of_tmp_mem hTt2 hTB).symm
  -- the two staged paths are distinct
  have htt : B.dropLast ++ [TEMPDIR] ++ [lastName B] ≠ A.dropLast ++ [TEMPDIR] ++ [lastName A] := by
    intro h
    rw [List.append_assoc, List.append_assoc] at h
    obtain ⟨hd, ht⟩ := List.append_inj' h (by simp)
    have hlast : lastName B = lastName A := by simpa using ht
    have hBA2 : B = A := by
      rw [← eq_dropLast_lastName B hB, ← eq_dropLast_lastName A hA, hd, hlast]
    exact hAB hBA2.symm
  -- staged paths differ from both holding directories
  have ht1td1 : B.dropLast ++ [TEMPDIR] ++ [lastName B] ≠ B.dropLast ++ [TEMPDIR] := by
    apply ne_of_getLast?_ne
    rw [getLast?_append_singleton, getLast?_append_singleton]
    simp [hlastB]
  have ht1td2 : B.dropLast ++ [TEMPDIR] ++ [lastName B] ≠ A.dropLast ++ [TEMPDIR] := by
    apply ne_of_getLast?_ne
    rw [getLast?_append_singleton, getLast?_append_singleton]
    simp [hlastB]
  have ht2td1 : A.dropLast ++ [TEMPDIR] ++ [lastName A] ≠ B.dropLast ++ [TEMPDIR] := by
    apply ne_of_getLast?_ne
    rw [getLast?_append_singleton, getLast?_append_singleton]
    simp [hlastA]
  have ht2td2 : A.dropLast ++ [TEMPDIR] ++ [lastName A] ≠ A.dropLast ++ [TEMPDIR] := by
    apply ne_of_getLast?_ne
    rw [getLast?_append_singleton, getLast?_append_singleton]
    simp [hlastA]
  -- Boolean forms
  have bAA : (A == A) = true := beq_self_eq_true A
  have bBB : (B == B) = true := beq_self_eq_true B
  have bBA : (B == A) = false := beq_false_of_ne hBA
  have bAB : (A == B) = false := beq_false_of_ne hAB
  have bAtd1 : (A == B.dropLast ++ [TEMPDIR]) = false := beq_false_of_ne hAtd1
  have bBtd1 : (B == B.dropLast ++ [TEMPDIR]) = false := beq_false_of_ne hBtd1
  have bAtd2 : (A == A.dropLast ++ [TEMPDIR]) = false := beq_false_of_ne hAtd2
  have bBtd2 : (B == A.dropLast ++ [TEMPDIR]) = false := beq_false_of_ne hBtd2
  have bAt1 : (A == B.dropLast ++ [TEMPDIR] ++ [lastName B]) = false := beq_false_of_ne hAt1
  have bBt1 : (B == B.dropLast ++ [TEMPDIR] ++ [lastName B]) = false := beq_false_of_ne hBt1
  have bAt2 : (A == A.dropLast ++ [TEMPDIR] ++ [lastName A]) = false := beq_false_of_ne hAt2
  have bBt2 : (B == A.dropLast ++ [TEMPDIR] ++ [lastName A]) = false := beq_false_of_ne hBt2
  have bt1A : (B.dropLast ++ [TEMPDIR] ++ [lastName B] == A) = false := beq_false_of_ne hAt1.symm
  have bt1B : (B.dropLast ++ [TEMPDIR] ++ [lastName B] == B) = false := beq_false_of_ne hBt1.symm
  have bt2A : (A.dropLast ++ [TEMPDIR] ++ [lastName A] == A) = false := beq_false_of_ne hAt2.symm
  have bt2B : (A.dropLast ++ [TEMPDIR] ++ [lastName A] == B) = false := beq_false_of_ne hBt2.symm
  have bt2t1 : (A.dropLast ++ [TEMPDIR] ++ [lastName A] == B.dropLast ++ [TEMPDIR] ++ [lastName B]) = false :=
    beq_false_of_ne htt.symm
  have bt1t2 : (B.dropLast ++ [TEMPDIR] ++ [lastName B] == A.dropLast ++ [TEMPDIR] ++ [lastName A]) = false :=
    beq_false_of_ne htt
  have bt1t1 : (B.dropLast ++ [TEMPDIR] ++ [lastName B] == B.dropLast ++ [TEMPDIR] ++ [lastName B]) = true :=
    beq_self_eq_true _
  have bt2t2 : (A.dropLast ++ [TEMPDIR] ++ [lastName A] == A.dropLast ++ [TEMPDIR] ++ [lastName A]) = true :=
    beq_self_eq_true _
  -- ===== pass 1, first entity: stage A at t1 =====
  have hHF1 : (⟨[(A,a),(B,b)], []⟩ : Fs).hasFile (B.dropLast ++ [TEMPDIR]) = false := by
    unfold Fs.hasFile
    rw [List.any_cons, List.any_cons, List.any_nil]
    dsimp only
    rw [bAtd1, bBtd1]
    rfl
  have hmk1 : (⟨[(A,a),(B,b)], []⟩ : Fs).mkdirp (B.dropLast ++ [TEMPDIR]) =
      some ⟨[(A,a),(B,b)], [B.dropLast ++ [TEMPDIR]]⟩ := by
    unfold Fs.mkdirp
    rw [hHF1]
    rfl
  have hfree1 : B.dropLast ++ [TEMPDIR] ++ [lastName B] ∉
      (⟨[(A,a),(B,b)], [B.dropLast ++ [TEMPDIR]]⟩ : Fs).occupied := by
    intro hmem
    unfold Fs.occupied Fs.fileKeys at hmem
    rcases List.mem_append.mp hmem with hf | hd
    · rw [show List.map Prod.fst [(A,a),(B,b)] = [A, B] from rfl] at hf
      rcases List.mem_cons.mp hf with h | h
      · exact hAt1 h.symm
      · rcases List.mem_cons.mp h with h2 | h2
        · exact hBt1 h2.symm
        · exact List.not_mem_nil _ h2
    · rcases List.mem_cons.mp hd with h | h
      · exact ht1td1 h
      · exact List.not_mem_nil _ h
  have hinc1 : inc_path (⟨[(A,a),(B,b)], [B.dropLast ++ [TEMPDIR]]⟩ : Fs).occupied
      (B.dropLast ++ [TEMPDIR] ++ [lastName B]) = B.dropLast ++ [TEMPDIR] ++ [lastName B] :=
    inc_path_eq_self _ _ hfree1
  have hfindA : List.find? (fun kv => kv.1 == A) [(A,a),(B,b)] = some (A, a) := by
    rw [List.find?_cons]
    dsimp only
    rw [bAA]
  have hfilter1 : List.filter
      (fun kv => !(kv.1 == A || kv.1 == B.dropLast ++ [TEMPDIR] ++ [lastName B]))
      [(A,a),(B,b)] = [(B,b)] := by
    rw [List.filter_cons, List.filter_cons, List.filter_nil]
    dsimp only
    rw [bAA, bAt1, bBA, bBt1]
    rfl
  have hren1 : (⟨[(A,a),(B,b)], [B.dropLast ++ [TEMPDIR]]⟩ : Fs).rename A
      (B.dropLast ++ [TEMPDIR] ++ [lastName B]) =
      ⟨[(B.dropLast ++ [TEMPDIR] ++ [lastName B], a), (B,b)], [B.dropLast ++ [TEMPDIR]]⟩ := by
    unfold Fs.rename
    rw [hfindA]
    dsimp only
    rw [hfilter1]
  have hRT1 : rename_temp ⟨⟨[(A,a),(B,b)], []⟩, [], [], []⟩ ⟨A, some B, none, [], false, d1, ""⟩ =
      (none, ⟨⟨[(B.dropLast ++ [TEMPDIR] ++ [lastName B], a), (B,b)], [B.dropLast ++ [TEMPDIR]]⟩,
        [], [], [B.dropLast ++ [TEMPDIR]]⟩,
       ⟨A, some B, some (B.dropLast ++ [TEMPDIR] ++ [lastName B]), [], false, d1, ""⟩) := by
    unfold rename_temp
    dsimp only
    simp only [Option.getD_some]
    rw [hmk1]
    dsimp only
    rw [hinc1, hren1]
    exact rfl
  have hS1 : pass1Step ⟨⟨[(A,a),(B,b)], []⟩, [], [], []⟩ ⟨A, some B, none, [], false, d1, n1⟩ =
      (⟨⟨[(B.dropLast ++ [TEMPDIR] ++ [lastName B], a), (B,b)], [B.dropLast ++ [TEMPDIR]]⟩,
        [], [], [B.dropLast ++ [TEMPDIR]]⟩,
       ⟨A, some B, some (B.dropLast ++ [TEMPDIR] ++ [lastName B]), [], false, d1, ""⟩) := by
    unfold pass1Step
    dsimp only
    simp only [Bool.false_and, Bool.false_eq_true, if_false]
    rw [if_neg hBA]
    rw [hRT1]
  -- ===== pass 1, second entity: stage B at t2 =====
  have bt1td2 : (B.dropLast ++ [TEMPDIR] ++ [lastName B] == A.dropLast ++ [TEMPDIR]) = false :=
    beq_false_of_ne ht1td2
  have hHF2 : (⟨[(B.dropLast ++ [TEMPDIR] ++ [lastName B], a), (B,b)],
      [B.dropLast ++ [TEMPDIR]]⟩ : Fs).hasFile (A.dropLast ++ [TEMPDIR]) = false := by
    unfold Fs.hasFile
    rw [List.any_cons, List.any_cons, List.any_nil]
    dsimp only
    rw [bt1td2, bBtd2]
    rfl
  have hmk2 : (⟨[(B.dropLast ++ [TEMPDIR] ++ [lastName B], a), (B,b)],
      [B.dropLast ++ [TEMPDIR]]⟩ : Fs).mkdirp (A.dropLast ++ [TEMPDIR]) =
      some ⟨[(B.dropLast ++ [TEMPDIR] ++ [lastName B], a), (B,b)],
        if ([B.dropLast ++ [TEMPDIR]] : List FPath).contains (A.dropLast ++ [TEMPDIR]) = true
        then [B.dropLast ++ [TEMPDIR]]
        else (A.dropLast ++ [TEMPDIR]) :: [B.dropLast ++ [TEMPDIR]]⟩ := by
    rw [mkdirp_eq _ _ hHF2]
  have hfree2 : A.dropLast ++ [TEMPDIR] ++ [lastName A] ∉
      (⟨[(B.dropLast ++ [TEMPDIR] ++ [lastName B], a), (B,b)],
        if ([B.dropLast ++ [TEMPDIR]] : List FPath).contains (A.dropLast ++ [TEMPDIR]) = true
        then [B.dropLast ++ [TEMPDIR]]
        else (A.dropLast ++ [TEMPDIR]) :: [B.dropLast ++ [TEMPDIR]]⟩ : Fs).occupied := by
    intro hmem
    unfold Fs.occupied Fs.fileKeys at hmem
    rcases List.mem_append.mp hmem with hf | hd
    · rcases List.mem_cons.mp hf with h | h
      · exact htt h.symm
      · rcases List.mem_cons.mp h with h2 | h2
        · exact hBt2 h2.symm
        · exact List.not_mem_nil _ h2
    · revert hd
      refine not_mem_ite_cons ?_ ?_
      · intro hm
        rcases List.mem_cons.mp hm with h | h
        · exact ht2td1 h
        · exact List.not_mem_nil _ h
      · intro hm
        rcases List.mem_cons.mp hm with h | h
        · exact ht2td2 h
        · rcases List.mem_cons.mp h with h2 | h2
          · exact ht2td1 h2
          · exact List.not_mem_nil _ h2
  have hinc2 : inc_path (⟨[(B.dropLast ++ [TEMPDIR] ++ [lastName B], a), (B,b)],
        if ([B.dropLast ++ [TEMPDIR]] : List FPath).contains (A.dropLast ++ [TEMPDIR]) = true
        then [B.dropLast ++ [TEMPDIR]]
        else (A.dropLast ++ [TEMPDIR]) :: [B.dropLast ++ [TEMPDIR]]⟩ : Fs).occupied
      (A.dropLast ++ [TEMPDIR] ++ [lastName A]) = A.dropLast ++ [TEMPDIR] ++ [lastName A] :=
    inc_path_eq_self _ _ hfree2
  have hfindB2 : List.find? (fun kv => kv.1 == B)
      [(B.dropLast ++ [TEMPDIR] ++ [lastName B], a), (B,b)] = some (B, b) := by
    rw [List.find?_cons]
    dsimp only
    rw [bt1B]
    simp only [Bool.false_eq_true, if_false]
    rw [List.find?_cons]
    dsimp only
    rw [bBB]
  have hfilter2 : List.filter
      (fun kv => !(kv.1 == B || kv.1 == A.dropLast ++ [TEMPDIR] ++ [lastName A]))
      [(B.dropLast ++ [TEMPDIR] ++ [lastName B], a), (B,b)] =
      [(B.dropLast ++ [TEMPDIR] ++ [lastName B], a)] := by
    rw [List.filter_cons, List.filter_cons, List.filter_nil]
    dsimp only
    rw [bt1B, bt1t2, bBB]
    rfl
  have hren2 : (⟨[(B.dropLast ++ [TEMPDIR] ++ [lastName B], a), (B,b)],
        if ([B.dropLast ++ [TEMPDIR]] : List FPath).contains (A.dropLast ++ [TEMPDIR]) = true
        then [B.dropLast ++ [TEMPDIR]]
        else (A.dropLast ++ [TEMPDIR]) :: [B.dropLast ++ [TEMPDIR]]⟩ : Fs).rename B
      (A.dropLast ++ [TEMPDIR] ++ [lastName A]) =
      ⟨[(A.dropLast ++ [TEMPDIR] ++ [lastName A], b),
        (B.dropLast ++ [TEMPDIR] ++ [lastName B], a)],
        if ([B.dropLast ++ [TEMPDIR]] : List FPath).contains (A.dropLast ++ [TEMPDIR]) = true
        then [B.dropLast ++ [TEMPDIR]]
        else (A.dropLast ++ [TEMPDIR]) :: [B.dropLast ++ [TEMPDIR]]⟩ := by
    unfold Fs.rename
    rw [hfindB2]
    dsimp only
    rw [hfilter2]
  have hS2 : pass1Step
      ⟨⟨[(B.dropLast ++ [TEMPDIR] ++ [lastName B], a), (B,b)], [B.dropLast ++ [TEMPDIR]]⟩,
        [], [], [B.dropLast ++ [TEMPDIR]]⟩ ⟨B, some A, none, [], false, d2, n2⟩ =
      (⟨⟨[(A.dropLast ++ [TEMPDIR] ++ [lastName A], b),
          (B.dropLast ++ [TEMPDIR] ++ [lastName B], a)],
          if ([B.dropLast ++ [TEMPDIR]] : List FPath).contains (A.dropLast ++ [TEMPDIR]) = true
          then [B.dropLast ++ [TEMPDIR]]
          else (A.dropLast ++ [TEMPDIR]) :: [B.dropLast ++ [TEMPDIR]]⟩,
        [], [],
        if ([B.dropLast ++ [TEMPDIR]] : List FPath).contains (A.dropLast ++ [TEMPDIR]) = true
        then [B.dropLast ++ [TEMPDIR]]
        else [B.dropLast ++ [TEMPDIR]] ++ [A.dropLast ++ [TEMPDIR]]⟩,
       ⟨B, some A, some (A.dropLast ++ [TEMPDIR] ++ [lastName A]), [], false, d2, ""⟩) := by
    unfold pass1Step
    dsimp only
    simp only [Bool.false_and, Bool.false_eq_true, if_false]
    rw [if_neg hAB]
    unfold rename_temp
    dsimp only
    simp only [Option.getD_some]
    rw [hmk2]
    dsimp only
    rw [hinc2, hren2]
  -- ===== pass 1 assembled =====
  have hP1 : foldStep pass1Step ⟨⟨[(A,a),(B,b)], []⟩, [], [], []⟩
      [⟨A, some B, none, [], false, d1, n1⟩, ⟨B, some A, none, [], false, d2, n2⟩] =
      (⟨⟨[(A.dropLast ++ [TEMPDIR] ++ [lastName A], b),
          (B.dropLast ++ [TEMPDIR] ++ [lastName B], a)],
          if ([B.dropLast ++ [TEMPDIR]] : List FPath).contains (A.dropLast ++ [TEMPDIR]) = true
          then [B.dropLast ++ [TEMPDIR]]
          else (A.dropLast ++ [TEMPDIR]) :: [B.dropLast ++ [TEMPDIR]]⟩,
        [], [],
        if ([B.dropLast ++ [TEMPDIR]] : List FPath).contains (A.dropLast ++ [TEMPDIR]) = true
        then [B.dropLast ++ [TEMPDIR]]
        else [B.dropLast ++ [TEMPDIR]] ++ [A.dropLast ++ [TEMPDIR]]⟩,
       [⟨A, some B, some (B.dropLast ++ [TEMPDIR] ++ [lastName B]), [], false, d1, ""⟩,
        ⟨B, some A, some (A.dropLast ++ [TEMPDIR] ++ [lastName A]), [], false, d2, ""⟩]) := by
    rw [foldStep_cons, hS1]
    dsimp only
    rw [foldStep_cons, hS2]
    dsimp only
    exact rfl
  -- ===== pass 2 skips both entities =====
  have hP2 : ∀ s : RunState, foldStep (pass2Step false) s
      [⟨A, some B, some (B.dropLast ++ [TEMPDIR] ++ [lastName B]), [], false, d1, ""⟩,
       ⟨B, some A, some (A.dropLast ++ [TEMPDIR] ++ [lastName A]), [], false, d2, ""⟩] =
      (s, [⟨A, some B, some (B.dropLast ++ [TEMPDIR] ++ [lastName B]), [], false, d1, ""⟩,
           ⟨B, some A, some (A.dropLast ++ [TEMPDIR] ++ [lastName A]), [], false, d2, ""⟩]) := by
    intro s
    rw [foldStep_cons, pass2Step_skip false s ⟨A, some B, some (B.dropLast ++ [TEMPDIR] ++ [lastName B]), [], false, d1, ""⟩ rfl]
    dsimp only
    rw [foldStep_cons, pass2Step_skip false s ⟨B, some A, some (A.dropLast ++ [TEMPDIR] ++ [lastName A]), [], false, d2, ""⟩ rfl]
    dsimp only
    exact rfl
  -- ===== pass 3, first entity: restore t1 to B =====
  have hfreeB : B ∉ (⟨[(A.dropLast ++ [TEMPDIR] ++ [lastName A], b),
        (B.dropLast ++ [TEMPDIR] ++ [lastName B], a)],
        if ([B.dropLast ++ [TEMPDIR]] : List FPath).contains (A.dropLast ++ [TEMPDIR]) = true
        then [B.dropLast ++ [TEMPDIR]]
        else (A.dropLast ++ [TEMPDIR]) :: [B.dropLast ++ [TEMPDIR]]⟩ : Fs).occupied := by
    intro hmem
    unfold Fs.occupied Fs.fileKeys at hmem
    rcases List.mem_append.mp hmem with hf | hd
    · rcases List.mem_cons.mp hf with h | h
      · exact hBt2 h
      · rcases List.mem_cons.mp h with h2 | h2
        · exact hBt1 h2
        · exact List.not_mem_nil _ h2
    · revert hd
      refine not_mem_ite_cons ?_ ?_
      · intro hm
        rcases List.mem_cons.mp hm with h | h
        · exact hBtd1 h
        · exact List.not_mem_nil _ h
      · intro hm
        rcases List.mem_cons.mp hm with h | h
        · exact hBtd2 h
        · rcases List.mem_cons.mp h with h2 | h2
          · exact hBtd1 h2
          · exact List.not_mem_nil _ h2
  have hincB : inc_path (⟨[(A.dropLast ++ [TEMPDIR] ++ [lastName A], b),
        (B.dropLast ++ [TEMPDIR] ++ [lastName B], a)],
        if ([B.dropLast ++ [TEMPDIR]] : List FPath).contains (A.dropLast ++ [TEMPDIR]) = true
        then [B.dropLast ++ [TEMPDIR]]
        else (A.dropLast ++ [TEMPDIR]) :: [B.dropLast ++ [TEMPDIR]]⟩ : Fs).occupied B = B :=
    inc_path_eq_self _ _ hfreeB
  have hfindT1 : List.find? (fun kv => kv.1 == B.dropLast ++ [TEMPDIR] ++ [lastName B])
      [(A.dropLast ++ [TEMPDIR] ++ [lastName A], b),
        (B.dropLast ++ [TEMPDIR] ++ [lastName B], a)] =
      some (B.dropLast ++ [TEMPDIR] ++ [lastName B], a) := by
    rw [List.find?_cons]
    dsimp only
    rw [bt2t1]
    simp only [Bool.false_eq_true, if_false]
    rw [List.find?_cons]
    dsimp only
    rw [bt1t1]
  have hfilter3 : List.filter
      (fun kv => !(kv.1 == B.dropLast ++ [TEMPDIR] ++ [lastName B] || kv.1 == B))
      [(A.dropLast ++ [TEMPDIR] ++ [lastName A], b),
        (B.dropLast ++ [TEMPDIR] ++ [lastName B], a)] =
      [(A.dropLast ++ [TEMPDIR] ++ [lastName A], b)] := by
    rw [List.filter_cons, List.filter_cons, List.filter_nil]
    dsimp only
    rw [bt2t1, bt2B, bt1t1]
    rfl
  have hren3 : (⟨[(A.dropLast ++ [TEMPDIR] ++ [lastName A], b),
        (B.dropLast ++ [TEMPDIR] ++ [lastName B], a)],
        if ([B.dropLast ++ [TEMPDIR]] : List FPath).contains (A.dropLast ++ [TEMPDIR]) = true
        then [B.dropLast ++ [TEMPDIR]]
        else (A.dropLast ++ [TEMPDIR]) :: [B.dropLast ++ [TEMPDIR]]⟩ : Fs).rename
      (B.dropLast ++ [TEMPDIR] ++ [lastName B]) B =
      ⟨[(B, a), (A.dropLast ++ [TEMPDIR] ++ [lastName A], b)],
        if ([B.dropLast ++ [TEMPDIR]] : List FPath).contains (A.dropLast ++ [TEMPDIR]) = true
        then [B.dropLast ++ [TEMPDIR]]
        else (A.dropLast ++ [TEMPDIR]) :: [B.dropLast ++ [TEMPDIR]]⟩ := by
    unfold Fs.rename
    rw [hfindT1]
    dsimp only
    rw [hfilter3]
  have hS3a : pass3Step
      ⟨⟨[(A.dropLast ++ [TEMPDIR] ++ [lastName A], b),
          (B.dropLast ++ [TEMPDIR] ++ [lastName B], a)],
          if ([B.dropLast ++ [TEMPDIR]] : List FPath).contains (A.dropLast ++ [TEMPDIR]) = true
          then [B.dropLast ++ [TEMPDIR]]
          else (A.dropLast ++ [TEMPDIR]) :: [B.dropLast ++ [TEMPDIR]]⟩,
        [], [],
        if ([B.dropLast ++ [TEMPDIR]] : List FPath).contains (A.dropLast ++ [TEMPDIR]) = true
        then [B.dropLast ++ [TEMPDIR]]
        else [B.dropLast ++ [TEMPDIR]] ++ [A.dropLast ++ [TEMPDIR]]⟩
      ⟨A, some B, some (B.dropLast ++ [TEMPDIR] ++ [lastName B]), [], false, d1, ""⟩ =
      (⟨⟨[(B, a), (A.dropLast ++ [TEMPDIR] ++ [lastName A], b)],
          if ([B.dropLast ++ [TEMPDIR]] : List FPath).contains (A.dropLast ++ [TEMPDIR]) = true
          then [B.dropLast ++ [TEMPDIR]]
          else (A.dropLast ++ [TEMPDIR]) :: [B.dropLast ++ [TEMPDIR]]⟩,
        [AppliedAction.two 'r' d1 (pathStr B ++ "")], [],
        if ([B.dropLast ++ [TEMPDIR]] : List FPath).contains (A.dropLast ++ [TEMPDIR]) = true
        then [B.dropLast ++ [TEMPDIR]]
        else [B.dropLast ++ [TEMPDIR]] ++ [A.dropLast ++ [TEMPDIR]]⟩,
       ⟨A, some B, some (B.dropLast ++ [TEMPDIR] ++ [lastName B]), [], false, d1, ""⟩) := by
    unfold pass3Step restore_temp
    dsimp only
    simp only [Option.getD_some]
    rw [hincB, hren3]
    simp only [Bool.false_eq_true, if_false]
    exact rfl
  -- ===== pass 3, second entity: restore t2 to A =====
  have hfreeA : A ∉ (⟨[(B, a), (A.dropLast ++ [TEMPDIR] ++ [lastName A], b)],
        if ([B.dropLast ++ [TEMPDIR]] : List FPath).contains (A.dropLast ++ [TEMPDIR]) = true
        then [B.dropLast ++ [TEMPDIR]]
        else (A.dropLast ++ [TEMPDIR]) :: [B.dropLast ++ [TEMPDIR]]⟩ : Fs).occupied := by
    intro hmem
    unfold Fs.occupied Fs.fileKeys at hmem
    rcases List.mem_append.mp hmem with hf | hd
    · rcases List.mem_cons.mp hf with h | h
      · exact hAB h
      · rcases List.mem_cons.mp h with h2 | h2
        · exact hAt2 h2
        · exact List.not_mem_nil _ h2
    · revert hd
      refine not_mem_ite_cons ?_ ?_
      · intro hm
        rcases List.mem_cons.mp hm with h | h
        · exact hAtd1 h
        · exact List.not_mem_nil _ h
      · intro hm
        rcases List.mem_cons.mp hm with h | h
        · exact hAtd2 h
        · rcases List.mem_cons.mp h with h2 | h2
          · exact hAtd1 h2
          · exact List.not_mem_nil _ h2
  have hincA : inc_path (⟨[(B, a), (A.dropLast ++ [TEMPDIR] ++ [lastName A], b)],
        if ([B.dropLast ++ [TEMPDIR]] : List FPath).contains (A.dropLast ++ [TEMPDIR]) = true
        then [B.dropLast ++ [TEMPDIR]]
        else (A.dropLast ++ [TEMPDIR]) :: [B.dropLast ++ [TEMPDIR]]⟩ : Fs).occupied A = A :=
    inc_path_eq_self _ _ hfreeA
  have hfindT2 : List.find? (fun kv => kv.1 == A.dropLast ++ [TEMPDIR] ++ [lastName A])
      [(B, a), (A.dropLast ++ [TEMPDIR] ++ [lastName A], b)] =
      some (A.dropLast ++ [TEMPDIR] ++ [lastName A], b) := by
    rw [List.find?_cons]
    dsimp only
    rw [bBt2]
    simp only [Bool.false_eq_true, if_false]
    rw [List.find?_cons]
    dsimp only
    rw [bt2t2]
  have hfilter4 : List.filter
      (fun kv => !(kv.1 == A.dropLast ++ [TEMPDIR] ++ [lastName A] || kv.1 == A))
      [(B, a), (A.dropLast ++ [TEMPDIR] ++ [lastName A], b)] = [(B, a)] := by
    rw [List.filter_cons, List.filter_cons, List.filter_nil]
    dsimp only
    rw [bBt2, bBA, bt2t2]
    rfl
  have hren4 : (⟨[(B, a), (A.dropLast ++ [TEMPDIR] ++ [lastName A], b)],
        if ([B.dropLast ++ [TEMPDIR]] : List FPath).contains (A.dropLast ++ [TEMPDIR]) = true
        then [B.dropLast ++ [TEMPDIR]]
        else (A.dropLast ++ [TEMPDIR]) :: [B.dropLast ++ [TEMPDIR]]⟩ : Fs).rename
      (A.dropLast ++ [TEMPDIR] ++ [lastName A]) A =
      ⟨[(A, b), (B, a)],
        if ([B.dropLast ++ [TEMPDIR]] : List FPath).contains (A.dropLast ++ [TEMPDIR]) = true
        then [B.dropLast ++ [TEMPDIR]]
        else (A.dropLast ++ [TEMPDIR]) :: [B.dropLast ++ [TEMPDIR]]⟩ := by
    unfold Fs.rename
    rw [hfindT2]
    dsimp only
    rw [hfilter4]
  have hS3b : pass3Step
      ⟨⟨[(B, a), (A.dropLast ++ [TEMPDIR] ++ [lastName A], b)],
          if ([B.dropLast ++ [TEMPDIR]] : List FPath).contains (A.dropLast ++ [TEMPDIR]) = true
          then [B.dropLast ++ [TEMPDIR]]
          else (A.dropLast ++ [TEMPDIR]) :: [B.dropLast ++ [TEMPDIR]]⟩,
        [AppliedAction.two 'r' d1 (pathStr B ++ "")], [],
        if ([B.dropLast ++ [TEMPDIR]] : List FPath).contains (A.dropLast ++ [TEMPDIR]) = true
        then [B.dropLast ++ [TEMPDIR]]
        else [B.dropLast ++ [TEMPDIR]] ++ [A.dropLast ++ [TEMPDIR]]⟩
      ⟨B, some A, some (A.dropLast ++ [TEMPDIR] ++ [lastName A]), [], false, d2, ""⟩ =
      (⟨⟨[(A, b), (B, a)],
          if ([B.dropLast ++ [TEMPDIR]] : List FPath).contains (A.dropLast ++ [TEMPDIR]) = true
          then [B.dropLast ++ [TEMPDIR]]
          else (A.dropLast ++ [TEMPDIR]) :: [B.dropLast ++ [TEMPDIR]]⟩,
        [AppliedAction.two 'r' d1 (pathStr B ++ ""),
         AppliedAction.two 'r' d2 (pathStr A ++ "")], [],
        if ([B.dropLast ++ [TEMPDIR]] : List FPath).contains (A.dropLast ++ [TEMPDIR]) = true
        then [B.dropLast ++ [TEMPDIR]]
        else [B.dropLast ++ [TEMPDIR]] ++ [A.dropLast ++ [TEMPDIR]]⟩,
       ⟨B, some A, some (A.dropLast ++ [TEMPDIR] ++ [lastName A]), [], false, d2, ""⟩) := by
    unfold pass3Step restore_temp
    dsimp only
    simp only [Option.getD_some]
    rw [hincA, hren4]
    simp only [Bool.false_eq_true, if_false]
    exact rfl
  -- ===== pass 3 assembled =====
  have hP3 : foldStep pass3Step
      ⟨⟨[(A.dropLast ++ [TEMPDIR] ++ [lastName A], b),
          (B.dropLast ++ [TEMPDIR] ++ [lastName B], a)],
          if ([B.dropLast ++ [TEMPDIR]] : List FPath).contains (A.dropLast ++ [TEMPDIR]) = true
          then [B.dropLast ++ [TEMPDIR]]
          else (A.dropLast ++ [TEMPDIR]) :: [B.dropLast ++ [TEMPDIR]]⟩,
        [], [],
        if ([B.dropLast ++ [TEMPDIR]] : List FPath).contains (A.dropLast ++ [TEMPDIR]) = true
        then [B.dropLast ++ [TEMPDIR]]
        else [B.dropLast ++ [TEMPDIR]] ++ [A.dropLast ++ [TEMPDIR]]⟩
      [⟨A, some B, some (B.dropLast ++ [TEMPDIR] ++ [lastName B]), [], false, d1, ""⟩,
       ⟨B, some A, some (A.dropLast ++ [TEMPDIR] ++ [lastName A]), [], false, d2, ""⟩] =
      (⟨⟨[(A, b), (B, a)],
          if ([B.dropLast ++ [TEMPDIR]] : List FPath).contains (A.dropLast ++ [TEMPDIR]) = true
          then [B.dropLast ++ [TEMPDIR]]
          else (A.dropLast ++ [TEMPDIR]) :: [B.dropLast ++ [TEMPDIR]]⟩,
        [AppliedAction.two 'r' d1 (pathStr B ++ ""),
         AppliedAction.two 'r' d2 (pathStr A ++ "")], [],
        if ([B.dropLast ++ [TEMPDIR]] : List FPath).contains (A.dropLast ++ [TEMPDIR]) = true
        then [B.dropLast ++ [TEMPDIR]]
        else [B.dropLast ++ [TEMPDIR]] ++ [A.dropLast ++ [TEMPDIR]]⟩,
       [⟨A, some B, some (B.dropLast ++ [TEMPDIR] ++ [lastName B]), [], false, d1, ""⟩,
        ⟨B, some A, some (A.dropLast ++ [TEMPDIR] ++ [lastName A]), [], false, d2, ""⟩]) := by
    rw [foldStep_cons, hS3a]
    dsimp only
    rw [foldStep_cons, hS3b]
    dsimp only
    exact rfl
  -- ===== the holding directories only ever contain TEMPDIR-tagged paths =====
  have hTtds : ∀ td ∈ (if ([B.dropLast ++ [TEMPDIR]] : List FPath).contains
        (A.dropLast ++ [TEMPDIR]) = true
        then [B.dropLast ++ [TEMPDIR]]
        else [B.dropLast ++ [TEMPDIR]] ++ [A.dropLast ++ [TEMPDIR]]), TEMPDIR ∈ td := by
    split
    · intro td htd
      rcases List.mem_cons.mp htd with h | h
      · rw [h]; exact hTd1
      · exact absurd h (List.not_mem_nil _)
    · intro td htd
      rcases List.mem_append.mp htd with h | h
      · rcases List.mem_cons.mp h with h2 | h2
        · rw [h2]; exact hTd1
        · exact absurd h2 (List.not_mem_nil _)
      · rcases List.mem_cons.mp h with h2 | h2
        · rw [h2]; exact hTd2
        · exact absurd h2 (List.not_mem_nil _)
  have hfilesT : ∀ kv ∈ ([(A, b), (B, a)] : List (FPath × Nat)), TEMPDIR ∉ kv.1 := by
    intro kv hkv
    rcases List.mem_cons.mp hkv with h | h
    · rw [h]; exact hTA
    · rcases List.mem_cons.mp h with h2 | h2
      · rw [h2]; exact hTB
      · exact absurd h2 (List.not_mem_nil _)
  -- ===== pass 4 skips both entities (any start state) =====
  have hP4 : ∀ s : RunState, foldStep (pass4Step false) s
      [⟨A, some B, some (B.dropLast ++ [TEMPDIR] ++ [lastName B]), [], false, d1, ""⟩,
       ⟨B, some A, some (A.dropLast ++ [TEMPDIR] ++ [lastName A]), [], false, d2, ""⟩] =
      (s, [⟨A, some B, some (B.dropLast ++ [TEMPDIR] ++ [lastName B]), [], false, d1, ""⟩,
           ⟨B, some A, some (A.dropLast ++ [TEMPDIR] ++ [lastName A]), [], false, d2, ""⟩]) := by
    intro s
    rw [foldStep_cons, pass4Step_skip false s ⟨A, some B, some (B.dropLast ++ [TEMPDIR] ++ [lastName B]), [], false, d1, ""⟩ rfl]
    dsimp only
    rw [foldStep_cons, pass4Step_skip false s ⟨B, some A, some (A.dropLast ++ [TEMPDIR] ++ [lastName A]), [], false, d2, ""⟩ rfl]
    dsimp only
    exact rfl
  -- ===== the whole engine run =====
  have hENG : engineRun false ⟨⟨[(A,a),(B,b)], []⟩, [], [], []⟩
      [⟨A, some B, none, [], false, d1, n1⟩, ⟨B, some A, none, [], false, d2, n2⟩] =
      (remove_temps
        ⟨⟨[(A, b), (B, a)],
          if ([B.dropLast ++ [TEMPDIR]] : List FPath).contains (A.dropLast ++ [TEMPDIR]) = true
          then [B.dropLast ++ [TEMPDIR]]
          else (A.dropLast ++ [TEMPDIR]) :: [B.dropLast ++ [TEMPDIR]]⟩,
         [AppliedAction.two 'r' d1 (pathStr B ++ ""),
          AppliedAction.two 'r' d2 (pathStr A ++ "")], [],
         if ([B.dropLast ++ [TEMPDIR]] : List FPath).contains (A.dropLast ++ [TEMPDIR]) = true
         then [B.dropLast ++ [TEMPDIR]]
         else [B.dropLast ++ [TEMPDIR]] ++ [A.dropLast ++ [TEMPDIR]]⟩,
       [⟨A, some B, some (B.dropLast ++ [TEMPDIR] ++ [lastName B]), [], false, d1, ""⟩,
        ⟨B, some A, some (A.dropLast ++ [TEMPDIR] ++ [lastName A]), [], false, d2, ""⟩]) := by
    unfold engineRun
    dsimp only
    rw [hP1]
    dsimp only
    rw [hP2]
    dsimp only
    rw [hP3]
    dsimp only
    rw [hP4]
  refine ⟨?_, ?_, ?_⟩
  · rw [hENG]
    dsimp only
    unfold remove_temps
    dsimp only
    unfold Fs.lookup
    rw [remove_temps_fold_files _ hTtds (⟨[(A, b), (B, a)],
        if ([B.dropLast ++ [TEMPDIR]] : List FPath).contains (A.dropLast ++ [TEMPDIR]) = true
        then [B.dropLast ++ [TEMPDIR]]
        else (A.dropLast ++ [TEMPDIR]) :: [B.dropLast ++ [TEMPDIR]]⟩ : Fs) hfilesT]
    dsimp only
    rw [List.find?_cons]
    dsimp only
    rw [bAB]
    simp only [Bool.false_eq_true, if_false]
    rw [List.find?_cons]
    dsimp only
    rw [bBB]
    rfl
  · rw [hENG]
    dsimp only
    unfold remove_temps
    dsimp only
    unfold Fs.lookup
    rw [remove_temps_fold_files _ hTtds (⟨[(A, b), (B, a)],
        if ([B.dropLast ++ [TEMPDIR]] : List FPath).contains (A.dropLast ++ [TEMPDIR]) = true
        then [B.dropLast ++ [TEMPDIR]]
        else (A.dropLast ++ [TEMPDIR]) :: [B.dropLast ++ [TEMPDIR]]⟩ : Fs) hfilesT]
    dsimp only
    rw [List.find?_cons]
    dsimp only
    rw [bAA]
    rfl
  · rw [hENG]
    rfl

theorem swap_run_rtl (A B : FPath) (a b : Nat) (d1 n1 d2 n2 : String)
    (hA : A ≠ []) (hB : B ≠ []) (hAB : A ≠ B)
    (hTA : TEMPDIR ∉ A) (hTB : TEMPDIR ∉ B) :
    ((engineRun false ⟨⟨[(A,a),(B,b)], []⟩, [], [], []⟩
        [⟨B, some A, none, [], false, d2, n2⟩, ⟨A, some B, none, [], false, d1, n1⟩]).1.fs.lookup B
      = some a) ∧
    ((engineRun false ⟨⟨[(A,a),(B,b)], []⟩, [], [], []⟩
        [⟨B, some A, none, [], false, d2, n2⟩, ⟨A, some B, none, [], false, d1, n1⟩]).1.fs.lookup A
      = some b) ∧
    ((engineRun false ⟨⟨[(A,a),(B,b)], []⟩, [], [], []⟩
        [⟨B, some A, none, [], false, d2, n2⟩, ⟨A, some B, none, [], false, d1, n1⟩]).1.failed
      = []) := by
  -- basic disequalities
  have hBA : ¬(B = A) := fun h => hAB h.symm
  have hTd1 : TEMPDIR ∈ B.dropLast ++ [TEMPDIR] := List.mem_append_right _ (by simp)
  have hTd2 : TEMPDIR ∈ A.dropLast ++ [TEMPDIR] := List.mem_append_right _ (by simp)
  have hTt1 : TEMPDIR ∈ B.dropLast ++ [TEMPDIR] ++ [lastName B] := List.mem_append_left _ hTd1
  have hTt2 : TEMPDIR ∈ A.dropLast ++ [TEMPDIR] ++ [lastName A] := List.mem_append_left _ hTd2
  have hlastB : lastName B ≠ TEMPDIR := lastName_ne_tmp B hB hTB
  have hlastA : lastName A ≠ TEMPDIR := lastName_ne_tmp A hA hTA
  have hAtd1 : A ≠ B.dropLast ++ [TEMPDIR] := (ne_of_tmp_mem hTd1 hTA).symm
  have hAtd2 : A ≠ A.dropLast ++ [TEMPDIR] := (ne_of_tmp_mem hTd2 hTA).symm
  have hAt1 : A ≠ B.dropLast ++ [TEMPDIR] ++ [lastName B] := (ne_of_tmp_mem hTt1 hTA).symm
  have hAt2 : A ≠ A.dropLast ++ [TEMPDIR] ++ [lastName A] := (ne_of_tmp_mem hTt2 hTA).symm
  have hBtd1 : B ≠ B.dropLast ++ [TEMPDIR] := (ne_of_tmp_mem hTd1 hTB).symm
  have hBtd2 : B ≠ A.dropLast ++ [TEMPDIR] := (ne_of_tmp_mem hTd2 hTB).symm
  have hBt1 : B ≠ B.dropLast ++ [TEMPDIR] ++ [lastName B] := (ne_of_tmp_mem hTt1 hTB).symm
  have hBt2 : B ≠ A.dropLast ++ [TEMPDIR] ++ [lastName A] := (ne_of_tmp_mem hTt2 hTB).symm
  have htt : B.dropLast ++ [TEMPDIR] ++ [lastName B] ≠ A.dropLast ++ [TEMPDIR] ++ [lastName A] := by
    intro h
    rw [List.append_assoc, List.append_assoc] at h
    obtain ⟨hd, ht⟩ := List.append_inj' h (by simp)
    have hlast : lastName B = lastName A := by simpa using ht
    have hBA2 : B = A := by
      rw [← eq_dropLast_lastName B hB, ← eq_dropLast_lastName A hA, hd, hlast]
    exact hAB hBA2.symm
  have ht1td1 : B.dropLast ++ [TEMPDIR] ++ [lastName B] ≠ B.dropLast ++ [TEMPDIR] := by
    apply ne_of_getLast?_ne
    rw [getLast?_append_singleton, getLast?_append_singleton]
    simp [hlastB]
  have ht1td2 : B.dropLast ++ [TEMPDIR] ++ [lastName B] ≠ A.dropLast ++ [TEMPDIR] := by
    apply ne_of_getLast?_ne
    rw [getLast?_append_singleton, getLast?_append_singleton]
    simp [hlastB]
  have ht2td1 : A.dropLast ++ [TEMPDIR] ++ [lastName A] ≠ B.dropLast ++ [TEMPDIR] := by
    apply ne_of_getLast?_ne
    rw [getLast?_append_singleton, getLast?_append_singleton]
    simp [hlastA]
  have ht2td2 : A.dropLast ++ [TEMPDIR] ++ [lastName A] ≠ A.dropLast ++ [TEMPDIR] := by
    apply ne_of_getLast?_ne
    rw [getLast?_append_singleton, getLast?_append_singleton]
    simp [hlastA]
  -- Boolean forms
  have bAA : (A == A) = true := beq_self_eq_true A
  have bBB : (B == B) = true := beq_self_eq_true B
  have bBA : (B == A) = false := beq_false_of_ne hBA
  have bAB : (A == B) = false := beq_false_of_ne hAB
  have bAtd1 : (A == B.dropLast ++ [TEMPDIR]) = false := beq_false_of_ne hAtd1
  have bAtd2 : (A == A.dropLast ++ [TEMPDIR]) = false := beq_false_of_ne hAtd2
  have bBtd2 : (B == A.dropLast ++ [TEMPDIR]) = false := beq_false_of_ne hBtd2
  have bAt1 : (A == B.dropLast ++ [TEMPDIR] ++ [lastName B]) = false := beq_false_of_ne hAt1
  have bAt2 : (A == A.dropLast ++ [TEMPDIR] ++ [lastName A]) = false := beq_false_of_ne hAt2
  have bt1A : (B.dropLast ++ [TEMPDIR] ++ [lastName B] == A) = false := beq_false_of_ne hAt1.symm
  have bt2A : (A.dropLast ++ [TEMPDIR] ++ [lastName A] == A) = false := beq_false_of_ne hAt2.symm
  have bt2t1 : (A.dropLast ++ [TEMPDIR] ++ [lastName A] == B.dropLast ++ [TEMPDIR] ++ [lastName B]) = false :=
    beq_false_of_ne htt.symm
  have bt1t2 : (B.dropLast ++ [TEMPDIR] ++ [lastName B] == A.dropLast ++ [TEMPDIR] ++ [lastName A]) = false :=
    beq_false_of_ne htt
  have bt1t1 : (B.dropLast ++ [TEMPDIR] ++ [lastName B] == B.dropLast ++ [TEMPDIR] ++ [lastName B]) = true :=
    beq_self_eq_true _
  have bt2t2 : (A.dropLast ++ [TEMPDIR] ++ [lastName A] == A.dropLast ++ [TEMPDIR] ++ [lastName A]) = true :=
    beq_self_eq_true _
  have bt2td1 : (A.dropLast ++ [TEMPDIR] ++ [lastName A] == B.dropLast ++ [TEMPDIR]) = false :=
    beq_false_of_ne ht2td1
  -- ===== pass 1, first entity: stage B at t2 =====
  have hHF1 : (⟨[(A,a),(B,b)], []⟩ : Fs).hasFile (A.dropLast ++ [TEMPDIR]) = false := by
    unfold Fs.hasFile
    rw [List.any_cons, List.any_cons, List.any_nil]
    dsimp only
    rw [bAtd2, bBtd2]
    rfl
  have hmk1 : (⟨[(A,a),(B,b)], []⟩ : Fs).mkdirp (A.dropLast ++ [TEMPDIR]) =
      some ⟨[(A,a),(B,b)], [A.dropLast ++ [TEMPDIR]]⟩ := by
    unfold Fs.mkdirp
    rw [hHF1]
    rfl
  have hfree1 : A.dropLast ++ [TEMPDIR] ++ [lastName A] ∉
      (⟨[(A,a),(B,b)], [A.dropLast ++ [TEMPDIR]]⟩ : Fs).occupied := by
    intro hmem
    unfold Fs.occupied Fs.fileKeys at hmem
    rcases List.mem_append.mp hmem with hf | hd
    · rcases List.mem_cons.mp hf with h | h
      · exact hAt2 h.symm
      · rcases List.mem_cons.mp h with h2 | h2
        · exact hBt2 h2.symm
        · exact List.not_mem_nil _ h2
    · rcases List.mem_cons.mp hd with h | h
      · exact ht2td2 h
      · exact List.not_mem_nil _ h
  have hinc1 : inc_path (⟨[(A,a),(B,b)], [A.dropLast ++ [TEMPDIR]]⟩ : Fs).occupied
      (A.dropLast ++ [TEMPDIR] ++ [lastName A]) = A.dropLast ++ [TEMPDIR] ++ [lastName A] :=
    inc_path_eq_self _ _ hfree1
  have hfindB : List.find? (fun kv => kv.1 == B) [(A,a),(B,b)] = some (B, b) := by
    rw [List.find?_cons]
    dsimp only
    rw [bAB]
    simp only [Bool.false_eq_true, if_false]
    rw [List.find?_cons]
    dsimp only
    rw [bBB]
  have hfilter1 : List.filter
      (fun kv => !(kv.1 == B || kv.1 == A.dropLast ++ [TEMPDIR] ++ [lastName A]))
      [(A,a),(B,b)] = [(A,a)] := by
    rw [List.filter_cons, List.filter_cons, List.filter_nil]
    dsimp only
    rw [bAB, bAt2, bBB]
    rfl
  have hren1 : (⟨[(A,a),(B,b)], [A.dropLast ++ [TEMPDIR]]⟩ : Fs).rename B
      (A.dropLast ++ [TEMPDIR] ++ [lastName A]) =
      ⟨[(A.dropLast ++ [TEMPDIR] ++ [lastName A], b), (A,a)], [A.dropLast ++ [TEMPDIR]]⟩ := by
    unfold Fs.rename
    rw [hfindB]
    dsimp only
    rw [hfilter1]
  have hRT1 : rename_temp ⟨⟨[(A,a),(B,b)], []⟩, [], [], []⟩ ⟨B, some A, none, [], false, d2, ""⟩ =
      (none, ⟨⟨[(A.dropLast ++ [TEMPDIR] ++ [lastName A], b), (A,a)], [A.dropLast ++ [TEMPDIR]]⟩,
        [], [], [A.dropLast ++ [TEMPDIR]]⟩,
       ⟨B, some A, some (A.dropLast ++ [TEMPDIR] ++ [lastName A]), [], false, d2, ""⟩) := by
    unfold rename_temp
    dsimp only
    simp only [Option.getD_some]
    rw [hmk1]
    dsimp only
    rw [hinc1, hren1]
    exact rfl
  have hS1 : pass1Step ⟨⟨[(A,a),(B,b)], []⟩, [], [], []⟩ ⟨B, some A, none, [], false, d2, n2⟩ =
      (⟨⟨[(A.dropLast ++ [TEMPDIR] ++ [lastName A], b), (A,a)], [A.dropLast ++ [TEMPDIR]]⟩,
        [], [], [A.dropLast ++ [TEMPDIR]]⟩,
       ⟨B, some A, some (A.dropLast ++ [TEMPDIR] ++ [lastName A]), [], false, d2, ""⟩) := by
    unfold pass1Step
    dsimp only
    simp only [Bool.false_and, Bool.false_eq_true, if_false]
    rw [if_neg hAB]
    rw [hRT1]
  -- ===== pass 1, second entity: stage A at t1 =====
  have hHF2 : (⟨[(A.dropLast ++ [TEMPDIR] ++ [lastName A], b), (A,a)],
      [A.dropLast ++ [TEMPDIR]]⟩ : Fs).hasFile (B.dropLast ++ [TEMPDIR]) = false := by
    unfold Fs.hasFile
    rw [List.any_cons, List.any_cons, List.any_nil]
    dsimp only
    rw [bt2td1, bAtd1]
    rfl
  have hmk2 : (⟨[(A.dropLast ++ [TEMPDIR] ++ [lastName A], b), (A,a)],
      [A.dropLast ++ [TEMPDIR]]⟩ : Fs).mkdirp (B.dropLast ++ [TEMPDIR]) =
      some ⟨[(A.dropLast ++ [TEMPDIR] ++ [lastName A], b), (A,a)],
        if ([A.dropLast ++ [TEMPDIR]] : List FPath).contains (B.dropLast ++ [TEMPDIR]) = true
        then [A.dropLast ++ [TEMPDIR]]
        else (B.dropLast ++ [TEMPDIR]) :: [A.dropLast ++ [TEMPDIR]]⟩ := by
    rw [mkdirp_eq _ _ hHF2]
  have hfree2 : B.dropLast ++ [TEMPDIR] ++ [lastName B] ∉
      (⟨[(A.dropLast ++ [TEMPDIR] ++ [lastName A], b), (A,a)],
        if ([A.dropLast ++ [TEMPDIR]] : List FPath).contains (B.dropLast ++ [TEMPDIR]) = true
        then [A.dropLast ++ [TEMPDIR]]
        else (B.dropLast ++ [TEMPDIR]) :: [A.dropLast ++ [TEMPDIR]]⟩ : Fs).occupied := by
    intro hmem
    unfold Fs.occupied Fs.fileKeys at hmem
    rcases List.mem_append.mp hmem with hf | hd
    · rcases List.mem_cons.mp hf with h | h
      · exact htt h
      · rcases List.mem_cons.mp h with h2 | h2
        · exact hAt1 h2.symm
        · exact List.not_mem_nil _ h2
    · revert hd
      refine not_mem_ite_cons ?_ ?_
      · intro hm
        rcases List.mem_cons.mp hm with h | h
        · exact ht1td2 h
        · exact List.not_mem_nil _ h
      · intro hm
        rcases List.mem_cons.mp hm with h | h
        · exact ht1td1 h
        · rcases List.mem_cons.mp h with h2 | h2
          · exact ht1td2 h2
          · exact List.not_mem_nil _ h2
  have hinc2 : inc_path (⟨[(A.dropLast ++ [TEMPDIR] ++ [lastName A], b), (A,a)],
        if ([A.dropLast ++ [TEMPDIR]] : List FPath).contains (B.dropLast ++ [TEMPDIR]) = true
        then [A.dropLast ++ [TEMPDIR]]
        else (B.dropLast ++ [TEMPDIR]) :: [A.dropLast ++ [TEMPDIR]]⟩ : Fs).occupied
      (B.dropLast ++ [TEMPDIR] ++ [lastName B]) = B.dropLast ++ [TEMPDIR] ++ [lastName B] :=
    inc_path_eq_self _ _ hfree2
  have hfindA2 : List.find? (fun kv => kv.1 == A)
      [(A.dropLast ++ [TEMPDIR] ++ [lastName A], b), (A,a)] = some (A, a) := by
    rw [List.find?_cons]
    dsimp only
    rw [bt2A]
    simp only [Bool.false_eq_true, if_false]
    rw [List.find?_cons]
    dsimp only
    rw [bAA]
  have hfilter2 : List.filter
      (fun kv => !(kv.1 == A || kv.1 == B.dropLast ++ [TEMPDIR] ++ [lastName B]))
      [(A.dropLast ++ [TEMPDIR] ++ [lastName A], b), (A,a)] =
      [(A.dropLast ++ [TEMPDIR] ++ [lastName A], b)] := by
    rw [List.filter_cons, List.filter_cons, List.filter_nil]
    dsimp only
    rw [bt2A, bt2t1, bAA]
    rfl
  have hren2 : (⟨[(A.dropLast ++ [TEMPDIR] ++ [lastName A], b), (A,a)],
        if ([A.dropLast ++ [TEMPDIR]] : List FPath).contains (B.dropLast ++ [TEMPDIR]) = true
        then [A.dropLast ++ [TEMPDIR]]
        else (B.dropLast ++ [TEMPDIR]) :: [A.dropLast ++ [TEMPDIR]]⟩ : Fs).rename A
      (B.dropLast ++ [TEMPDIR] ++ [lastName B]) =
      ⟨[(B.dropLast ++ [TEMPDIR] ++ [lastName B], a),
        (A.dropLast ++ [TEMPDIR] ++ [lastName A], b)],
        if ([A.dropLast ++ [TEMPDIR]] : List FPath).contains (B.dropLast ++ [TEMPDIR]) = true
        then [A.dropLast ++ [TEMPDIR]]
        else (B.dropLast ++ [TEMPDIR]) :: [A.dropLast ++ [TEMPDIR]]⟩ := by
    unfold Fs.rename
    rw [hfindA2]
    dsimp only
    rw [hfilter2]
  have hS2 : pass1Step
      ⟨⟨[(A.dropLast ++ [TEMPDIR] ++ [lastName A], b), (A,a)], [A.dropLast ++ [TEMPDIR]]⟩,
        [], [], [A.dropLast ++ [TEMPDIR]]⟩ ⟨A, some B, none, [], false, d1, n1⟩ =
      (⟨⟨[(B.dropLast ++ [TEMPDIR] ++ [lastName B], a),
          (A.dropLast ++ [TEMPDIR] ++ [lastName A], b)],
          if ([A.dropLast ++ [TEMPDIR]] : List FPath).contains (B.dropLast ++ [TEMPDIR]) = true
          then [A.dropLast ++ [TEMPDIR]]
          else (B.dropLast ++ [TEMPDIR]) :: [A.dropLast ++ [TEMPDIR]]⟩,
        [], [],
        if ([A.dropLast ++ [TEMPDIR]] : List FPath).contains (B.dropLast ++ [TEMPDIR]) = true
        then [A.dropLast ++ [TEMPDIR]]
        else [A.dropLast ++ [TEMPDIR]] ++ [B.dropLast ++ [TEMPDIR]]⟩,
       ⟨A, some B, some (B.dropLast ++ [TEMPDIR] ++ [lastName B]), [], false, d1, ""⟩) := by
    unfold pass1Step
    dsimp only
    simp only [Bool.false_and, Bool.false_eq_true, if_false]
    rw [if_neg hBA]
    unfold rename_temp
    dsimp only
    simp only [Option.getD_some]
    rw [hmk2]
    dsimp only
    rw [hinc2, hren2]
  -- ===== pass 1 assembled =====
  have hP1 : foldStep pass1Step ⟨⟨[(A,a),(B,b)], []⟩, [], [], []⟩
      [⟨B, some A, none, [], false, d2, n2⟩, ⟨A, some B, none, [], false, d1, n1⟩] =
      (⟨⟨[(B.dropLast ++ [TEMPDIR] ++ [lastName B], a),
          (A.dropLast ++ [TEMPDIR] ++ [lastName A], b)],
          if ([A.dropLast ++ [TEMPDIR]] : List FPath).contains (B.dropLast ++ [TEMPDIR]) = true
          then [A.dropLast ++ [TEMPDIR]]
          else (B.dropLast ++ [TEMPDIR]) :: [A.dropLast ++ [TEMPDIR]]⟩,
        [], [],
        if ([A.dropLast ++ [TEMPDIR]] : List FPath).contains (B.dropLast ++ [TEMPDIR]) = true
        then [A.dropLast ++ [TEMPDIR]]
        else [A.dropLast ++ [TEMPDIR]] ++ [B.dropLast ++ [TEMPDIR]]⟩,
       [⟨B, some A, some (A.dropLast ++ [TEMPDIR] ++ [lastName A]), [], false, d2, ""⟩,
        ⟨A, some B, some (B.dropLast ++ [TEMPDIR] ++ [lastName B]), [], false, d1, ""⟩]) := by
    rw [foldStep_cons, hS1]
    dsimp only
    rw [foldStep_cons, hS2]
    dsimp only
    exact rfl
  -- ===== pass 2 skips both entities =====
  have hP2 : ∀ s : RunState, foldStep (pass2Step false) s
      [⟨B, some A, some (A.dropLast ++ [TEMPDIR] ++ [lastName A]), [], false, d2, ""⟩,
       ⟨A, some B, some (B.dropLast ++ [TEMPDIR] ++ [lastName B]), [], false, d1, ""⟩] =
      (s, [⟨B, some A, some (A.dropLast ++ [TEMPDIR] ++ [lastName A]), [], false, d2, ""⟩,
           ⟨A, some B, some (B.dropLast ++ [TEMPDIR] ++ [lastName B]), [], false, d1, ""⟩]) := by
    intro s
    rw [foldStep_cons, pass2Step_skip false s
      ⟨B, some A, some (A.dropLast ++ [TEMPDIR] ++ [lastName A]), [], false, d2, ""⟩ rfl]
    dsimp only
    rw [foldStep_cons, pass2Step_skip false s
      ⟨A, some B, some (B.dropLast ++ [TEMPDIR] ++ [lastName B]), [], false, d1, ""⟩ rfl]
    dsimp only
    exact rfl
  -- ===== pass 3, first entity: restore t2 to A =====
  have hfreeA : A ∉ (⟨[(B.dropLast ++ [TEMPDIR] ++ [lastName B], a),
        (A.dropLast ++ [TEMPDIR] ++ [lastName A], b)],
        if ([A.dropLast ++ [TEMPDIR]] : List FPath).contains (B.dropLast ++ [TEMPDIR]) = true
        then [A.dropLast ++ [TEMPDIR]]
        else (B.dropLast ++ [TEMPDIR]) :: [A.dropLast ++ [TEMPDIR]]⟩ : Fs).occupied := by
    intro hmem
    unfold Fs.occupied Fs.fileKeys at hmem
    rcases List.mem_append.mp hmem with hf | hd
    · rcases List.mem_cons.mp hf with h | h
      · exact hAt1 h
      · rcases List.mem_cons.mp h with h2 | h2
        · exact hAt2 h2
        · exact List.not_mem_nil _ h2
    · revert hd
      refine not_mem_ite_cons ?_ ?_
      · intro hm
        rcases List.mem_cons.mp hm with h | h
        · exact hAtd2 h
        · exact List.not_mem_nil _ h
      · intro hm
        rcases List.mem_cons.mp hm with h | h
        · exact hAtd1 h
        · rcases List.mem_cons.mp h with h2 | h2
          · exact hAtd2 h2
          · exact List.not_mem_nil _ h2
  have hincA : inc_path (⟨[(B.dropLast ++ [TEMPDIR] ++ [lastName B], a),
        (A.dropLast ++ [TEMPDIR] ++ [lastName A], b)],
        if ([A.dropLast ++ [TEMPDIR]] : List FPath).contains (B.dropLast ++ [TEMPDIR]) = true
        then [A.dropLast ++ [TEMPDIR]]
        else (B.dropLast ++ [TEMPDIR]) :: [A.dropLast ++ [TEMPDIR]]⟩ : Fs).occupied A = A :=
    inc_path_eq_self _ _ hfreeA
  have hfindT2 : List.find? (fun kv => kv.1 == A.dropLast ++ [TEMPDIR] ++ [lastName A])
      [(B.dropLast ++ [TEMPDIR] ++ [lastName B], a),
        (A.dropLast ++ [TEMPDIR] ++ [lastName A], b)] =
      some (A.dropLast ++ [TEMPDIR] ++ [lastName A], b) := by
    rw [List.find?_cons]
    dsimp only
    rw [bt1t2]
    simp only [Bool.false_eq_true, if_false]
    rw [List.find?_cons]
    dsimp only
    rw [bt2t2]
  have hfilter3 : List.filter
      (fun kv => !(kv.1 == A.dropLast ++ [TEMPDIR] ++ [lastName A] || kv.1 == A))
      [(B.dropLast ++ [TEMPDIR] ++ [lastName B], a),
        (A.dropLast ++ [TEMPDIR] ++ [lastName A], b)] =
      [(B.dropLast ++ [TEMPDIR] ++ [lastName B], a)] := by
    rw [List.filter_cons, List.filter_cons, List.filter_nil]
    dsimp only
    rw [bt1t2, bt1A, bt2t2]
    rfl
  have hren3 : (⟨[(B.dropLast ++ [TEMPDIR] ++ [lastName B], a),
        (A.dropLast ++ [TEMPDIR] ++ [lastName A], b)],
        if ([A.dropLast ++ [TEMPDIR]] : List FPath).contains (B.dropLast ++ [TEMPDIR]) = true
        then [A.dropLast ++ [TEMPDIR]]
        else (B.dropLast ++ [TEMPDIR]) :: [A.dropLast ++ [TEMPDIR]]⟩ : Fs).rename
      (A.dropLast ++ [TEMPDIR] ++ [lastName A]) A =
      ⟨[(A, b), (B.dropLast ++ [TEMPDIR] ++ [lastName B], a)],
        if ([A.dropLast ++ [TEMPDIR]] : List FPath).contains (B.dropLast ++ [TEMPDIR]) = true
        then [A.dropLast ++ [TEMPDIR]]
        else (B.dropLast ++ [TEMPDIR]) :: [A.dropLast ++ [TEMPDIR]]⟩ := by
    unfold Fs.rename
    rw [hfindT2]
    dsimp only
    rw [hfilter3]
  have hS3a : pass3Step
      ⟨⟨[(B.dropLast ++ [TEMPDIR] ++ [lastName B], a),
          (A.dropLast ++ [TEMPDIR] ++ [lastName A], b)],
          if ([A.dropLast ++ [TEMPDIR]] : List FPath).contains (B.dropLast ++ [TEMPDIR]) = true
          then [A.dropLast ++ [TEMPDIR]]
          else (B.dropLast ++ [TEMPDIR]) :: [A.dropLast ++ [TEMPDIR]]⟩,
        [], [],
        if ([A.dropLast ++ [TEMPDIR]] : List FPath).contains (B.dropLast ++ [TEMPDIR]) = true
        then [A.dropLast ++ [TEMPDIR]]
        else [A.dropLast ++ [TEMPDIR]] ++ [B.dropLast ++ [TEMPDIR]]⟩
      ⟨B, some A, some (A.dropLast ++ [TEMPDIR] ++ [lastName A]), [], false, d2, ""⟩ =
      (⟨⟨[(A, b), (B.dropLast ++ [TEMPDIR] ++ [lastName B], a)],
          if ([A.dropLast ++ [TEMPDIR]] : List FPath).contains (B.dropLast ++ [TEMPDIR]) = true
          then [A.dropLast ++ [TEMPDIR]]
          else (B.dropLast ++ [TEMPDIR]) :: [A.dropLast ++ [TEMPDIR]]⟩,
        [AppliedAction.two 'r' d2 (pathStr A ++ "")], [],
        if ([A.dropLast ++ [TEMPDIR]] : List FPath).contains (B.dropLast ++ [TEMPDIR]) = true
        then [A.dropLast ++ [TEMPDIR]]
        else [A.dropLast ++ [TEMPDIR]] ++ [B.dropLast ++ [TEMPDIR]]⟩,
       ⟨B, some A, some (A.dropLast ++ [TEMPDIR] ++ [lastName A]), [], false, d2, ""⟩) := by
    unfold pass3Step restore_temp
    dsimp only
    simp only [Option.getD_some]
    rw [hincA, hren3]
    simp only [Bool.false_eq_true, if_false]
    exact rfl
  -- ===== pass 3, second entity: restore t1 to B =====
  have hfreeB : B ∉ (⟨[(A, b), (B.dropLast ++ [TEMPDIR] ++ [lastName B], a)],
        if ([A.dropLast ++ [TEMPDIR]] : List FPath).contains (B.dropLast ++ [TEMPDIR]) = true
        then [A.dropLast ++ [TEMPDIR]]
        else (B.dropLast ++ [TEMPDIR]) :: [A.dropLast ++ [TEMPDIR]]⟩ : Fs).occupied := by
    intro hmem
    unfold Fs.occupied Fs.fileKeys at hmem
    rcases List.mem_append.mp hmem with hf | hd
    · rcases List.mem_cons.mp hf with h | h
      · exact hBA h
      · rcases List.mem_cons.mp h with h2 | h2
        · exact hBt1 h2
        · exact List.not_mem_nil _ h2
    · revert hd
      refine not_mem_ite_cons ?_ ?_
      · intro hm
        rcases List.mem_cons.mp hm with h | h
        · exact hBtd2 h
        · exact List.not_mem_nil _ h
      · intro hm
        rcases List.mem_cons.mp hm with h | h
        · exact hBtd1 h
        · rcases List.mem_cons.mp h with h2 | h2
          · exact hBtd2 h2
          · exact List.not_mem_nil _ h2
  have hincB : inc_path (⟨[(A, b), (B.dropLast ++ [TEMPDIR] ++ [lastName B], a)],
        if ([A.dropLast ++ [TEMPDIR]] : List FPath).contains (B.dropLast ++ [TEMPDIR]) = true
        then [A.dropLast ++ [TEMPDIR]]
        else (B.dropLast ++ [TEMPDIR]) :: [A.dropLast ++ [TEMPDIR]]⟩ : Fs).occupied B = B :=
    inc_path_eq_self _ _ hfreeB
  have hfindT1 : List.find? (fun kv => kv.1 == B.dropLast ++ [TEMPDIR] ++ [lastName B])
      [(A, b), (B.dropLast ++ [TEMPDIR] ++ [lastName B], a)] =
      some (B.dropLast ++ [TEMPDIR] ++ [lastName B], a) := by
    rw [List.find?_cons]
    dsimp only
    rw [bAt1]
    simp only [Bool.false_eq_true, if_false]
    rw [List.find?_cons]
    dsimp only
    rw [bt1t1]
  have hfilter4 : List.filter
      (fun kv => !(kv.1 == B.dropLast ++ [TEMPDIR] ++ [lastName B] || kv.1 == B))
      [(A, b), (B.dropLast ++ [TEMPDIR] ++ [lastName B], a)] = [(A, b)] := by
    rw [List.filter_cons, List.filter_cons, List.filter_nil]
    dsimp only
    rw [bAt1, bAB, bt1t1]
    rfl
  have hren4 : (⟨[(A, b), (B.dropLast ++ [TEMPDIR] ++ [lastName B], a)],
        if ([A.dropLast ++ [TEMPDIR]] : List FPath).contains (B.dropLast ++ [TEMPDIR]) = true
        then [A.dropLast ++ [TEMPDIR]]
        else (B.dropLast ++ [TEMPDIR]) :: [A.dropLast ++ [TEMPDIR]]⟩ : Fs).rename
      (B.dropLast ++ [TEMPDIR] ++ [lastName B]) B =
      ⟨[(B, a), (A, b)],
        if ([A.dropLast ++ [TEMPDIR]] : List FPath).contains (B.dropLast ++ [TEMPDIR]) = true
        then [A.dropLast ++ [TEMPDIR]]
        else (B.dropLast ++ [TEMPDIR]) :: [A.dropLast ++ [TEMPDIR]]⟩ := by
    unfold Fs.rename
    rw [hfindT1]
    dsimp only
    rw [hfilter4]
  have hS3b : pass3Step
      ⟨⟨[(A, b), (B.dropLast ++ [TEMPDIR] ++ [lastName B], a)],
          if ([A.dropLast ++ [TEMPDIR]] : List FPath).contains (B.dropLast ++ [TEMPDIR]) = true
          then [A.dropLast ++ [TEMPDIR]]
          else (B.dropLast ++ [TEMPDIR]) :: [A.dropLast ++ [TEMPDIR]]⟩,
        [AppliedAction.two 'r' d2 (pathStr A ++ "")], [],
        if ([A.dropLast ++ [TEMPDIR]] : List FPath).contains (B.dropLast ++ [TEMPDIR]) = true
        then [A.dropLast ++ [TEMPDIR]]
        else [A.dropLast ++ [TEMPDIR]] ++ [B.dropLast ++ [TEMPDIR]]⟩
      ⟨A, some B, some (B.dropLast ++ [TEMPDIR] ++ [lastName B]), [], false, d1, ""⟩ =
      (⟨⟨[(B, a), (A, b)],
          if ([A.dropLast ++ [TEMPDIR]] : List FPath).contains (B.dropLast ++ [TEMPDIR]) = true
          then [A.dropLast ++ [TEMPDIR]]
          else (B.dropLast ++ [TEMPDIR]) :: [A.dropLast ++ [TEMPDIR]]⟩,
        [AppliedAction.two 'r' d2 (pathStr A ++ ""),
         AppliedAction.two 'r' d1 (pathStr B ++ "")], [],
        if ([A.dropLast ++ [TEMPDIR]] : List FPath).contains (B.dropLast ++ [TEMPDIR]) = true
        then [A.dropLast ++ [TEMPDIR]]
        else [A.dropLast ++ [TEMPDIR]] ++ [B.dropLast ++ [TEMPDIR]]⟩,
       ⟨A, some B, some (B.dropLast ++ [TEMPDIR] ++ [lastName B]), [], false, d1, ""⟩) := by
    unfold pass3Step restore_temp
    dsimp only
    simp only [Option.getD_some]
    rw [hincB, hren4]
    simp only [Bool.false_eq_true, if_false]
    exact rfl
  -- ===== pass 3 assembled =====
  have hP3 : foldStep pass3Step
      ⟨⟨[(B.dropLast ++ [TEMPDIR] ++ [lastName B], a),
          (A.dropLast ++ [TEMPDIR] ++ [lastName A], b)],
          if ([A.dropLast ++ [TEMPDIR]] : List FPath).contains (B.dropLast ++ [TEMPDIR]) = true
          then [A.dropLast ++ [TEMPDIR]]
          else (B.dropLast ++ [TEMPDIR]) :: [A.dropLast ++ [TEMPDIR]]⟩,
        [], [],
        if ([A.dropLast ++ [TEMPDIR]] : List FPath).contains (B.dropLast ++ [TEMPDIR]) = true
        then [A.dropLast ++ [TEMPDIR]]
        else [A.dropLast ++ [TEMPDIR]] ++ [B.dropLast ++ [TEMPDIR]]⟩
      [⟨B, some A, some (A.dropLast ++ [TEMPDIR] ++ [lastName A]), [], false, d2, ""⟩,
       ⟨A, some B, some (B.dropLast ++ [TEMPDIR] ++ [lastName B]), [], false, d1, ""⟩] =
      (⟨⟨[(B, a), (A, b)],
          if ([A.dropLast ++ [TEMPDIR]] : List FPath).contains (B.dropLast ++ [TEMPDIR]) = true
          then [A.dropLast ++ [TEMPDIR]]
          else (B.dropLast ++ [TEMPDIR]) :: [A.dropLast ++ [TEMPDIR]]⟩,
        [AppliedAction.two 'r' d2 (pathStr A ++ ""),
         AppliedAction.two 'r' d1 (pathStr B ++ "")], [],
        if ([A.dropLast ++ [TEMPDIR]] : List FPath).contains (B.dropLast ++ [TEMPDIR]) = true
        then [A.dropLast ++ [TEMPDIR]]
        else [A.dropLast ++ [TEMPDIR]] ++ [B.dropLast ++ [TEMPDIR]]⟩,
       [⟨B, some A, some (A.dropLast ++ [TEMPDIR] ++ [lastName A]), [], false, d2, ""⟩,
        ⟨A, some B, some (B.dropLast ++ [TEMPDIR] ++ [lastName B]), [], false, d1, ""⟩]) := by
    rw [foldStep_cons, hS3a]
    dsimp only
    rw [foldStep_cons, hS3b]
    dsimp only
    exact rfl
  -- ===== the holding directories only ever contain TEMPDIR-tagged paths =====
  have hTtds : ∀ td ∈ (if ([A.dropLast ++ [TEMPDIR]] : List FPath).contains
        (B.dropLast ++ [TEMPDIR]) = true
        then [A.dropLast ++ [TEMPDIR]]
        else [A.dropLast ++ [TEMPDIR]] ++ [B.dropLast ++ [TEMPDIR]]), TEMPDIR ∈ td := by
    split
    · intro td htd
      rcases List.mem_cons.mp htd with h | h
      · rw [h]; exact hTd2
      · exact absurd h (List.not_mem_nil _)
    · intro td htd
      rcases List.mem_append.mp htd with h | h
      · rcases List.mem_cons.mp h with h2 | h2
        · rw [h2]; exact hTd2
        · exact absurd h2 (List.not_mem_nil _)
      · rcases List.mem_cons.mp h with h2 | h2
        · rw [h2]; exact hTd1
        · exact absurd h2 (List.not_mem_nil _)
  have hfilesT : ∀ kv ∈ ([(B, a), (A, b)] : List (FPath × Nat)), TEMPDIR ∉ kv.1 := by
    intro kv hkv
    rcases List.mem_cons.mp hkv with h | h
    · rw [h]; exact hTB
    · rcases List.mem_cons.mp h with h2 | h2
      · rw [h2]; exact hTA
      · exact absurd h2 (List.not_mem_nil _)
  -- ===== pass 4 skips both entities (any start state) =====
  have hP4 : ∀ s : RunState, foldStep (pass4Step false) s
      [⟨B, some A, some (A.dropLast ++ [TEMPDIR] ++ [lastName A]), [], false, d2, ""⟩,
       ⟨A, some B, some (B.dropLast ++ [TEMPDIR] ++ [lastName B]), [], false, d1, ""⟩] =
      (s, [⟨B, some A, some (A.dropLast ++ [TEMPDIR] ++ [lastName A]), [], false, d2, ""⟩,
           ⟨A, some B, some (B.dropLast ++ [TEMPDIR] ++ [lastName B]), [], false, d1, ""⟩]) := by
    intro s
    rw [foldStep_cons, pass4Step_skip false s
      ⟨B, some A, some (A.dropLast ++ [TEMPDIR] ++ [lastName A]), [], false, d2, ""⟩ rfl]
    dsimp only
    rw [foldStep_cons, pass4Step_skip false s
      ⟨A, some B, some (B.dropLast ++ [TEMPDIR] ++ [lastName B]), [], false, d1, ""⟩ rfl]
    dsimp only
    exact rfl
  -- ===== the whole engine run =====
  have hENG : engineRun false ⟨⟨[(A,a),(B,b)], []⟩, [], [], []⟩
      [⟨B, some A, none, [], false, d2, n2⟩, ⟨A, some B, none, [], false, d1, n1⟩] =
      (remove_temps
        ⟨⟨[(B, a), (A, b)],
          if ([A.dropLast ++ [TEMPDIR]] : List FPath).contains (B.dropLast ++ [TEMPDIR]) = true
          then [A.dropLast ++ [TEMPDIR]]
          else (B.dropLast ++ [TEMPDIR]) :: [A.dropLast ++ [TEMPDIR]]⟩,
         [AppliedAction.two 'r' d2 (pathStr A ++ ""),
          AppliedAction.two 'r' d1 (pathStr B ++ "")], [],
         if ([A.dropLast ++ [TEMPDIR]] : List FPath).contains (B.dropLast ++ [TEMPDIR]) = true
         then [A.dropLast ++ [TEMPDIR]]
         else [A.dropLast ++ [TEMPDIR]] ++ [B.dropLast ++ [TEMPDIR]]⟩,
       [⟨B, some A, some (A.dropLast ++ [TEMPDIR] ++ [lastName A]), [], false, d2, ""⟩,
        ⟨A, some B, some (B.dropLast ++ [TEMPDIR] ++ [lastName B]), [], false, d1, ""⟩]) := by
    unfold engineRun
    dsimp only
    rw [hP1]
    dsimp only
    rw [hP2]
    dsimp only
    rw [hP3]
    dsimp only
    rw [hP4]
  refine ⟨?_, ?_, ?_⟩
  · rw [hENG]
    dsimp only
    unfold remove_temps
    dsimp only
    unfold Fs.lookup
    rw [remove_temps_fold_files _ hTtds (⟨[(B, a), (A, b)],
        if ([A.dropLast ++ [TEMPDIR]] : List FPath).contains (B.dropLast ++ [TEMPDIR]) = true
        then [A.dropLast ++ [TEMPDIR]]
        else (B.dropLast ++ [TEMPDIR]) :: [A.dropLast ++ [TEMPDIR]]⟩ : Fs) hfilesT]
    dsimp only
    rw [List.find?_cons]
    dsimp only
    rw [bBB]
    rfl
  · rw [hENG]
    dsimp only
    unfold remove_temps
    dsimp only
    unfold Fs.lookup
    rw [remove_temps_fold_files _ hTtds (⟨[(B, a), (A, b)],
        if ([A.dropLast ++ [TEMPDIR]] : List FPath).contains (B.dropLast ++ [TEMPDIR]) = true
        then [A.dropLast ++ [TEMPDIR]]
        else (B.dropLast ++ [TEMPDIR]) :: [A.dropLast ++ [TEMPDIR]]⟩ : Fs) hfilesT]
    dsimp only
    rw [List.find?_cons]
    dsimp only
    rw [bBA]
    simp only [Bool.false_eq_true, if_false]
    rw [List.find?_cons]
    dsimp only
    rw [bAA]
    rfl
  · rw [hENG]
    rfl

/-- C1: the spec's swap guarantee is false as stated: when one of the two
paths contains a `.tmp-edir` component, the engine's final holding-directory
cleanup (`remove_temps`) deletes the restored file.  Here `x/.tmp-edir/y`
and `x/y` are swapped; the run reports no failure, yet afterwards nothing
occupies `x/.tmp-edir/y` (B's content 20 was silently destroyed). -/
theorem claim1_counterexample :
    ((engineRun false
        ⟨⟨[(["x", ".tmp-edir", "y"], 10), (["x", "y"], 20)],
          [["x"], ["x", ".tmp-edir"]]⟩, [], [], []⟩
        [⟨["x", ".tmp-edir", "y"], some ["x", "y"], none, [], false, "x/.tmp-edir/y", ""⟩,
         ⟨["x", "y"], some ["x", ".tmp-edir", "y"], none, [], false, "x/y", ""⟩]).1.fs.lookup
      ["x", ".tmp-edir", "y"] = none) ∧
    ((engineRun false
        ⟨⟨[(["x", ".tmp-edir", "y"], 10), (["x", "y"], 20)],
          [["x"], ["x", ".tmp-edir"]]⟩, [], [], []⟩
        [⟨["x", ".tmp-edir", "y"], some ["x", "y"], none, [], false, "x/.tmp-edir/y", ""⟩,
         ⟨["x", "y"], some ["x", ".tmp-edir", "y"], none, [], false, "x/y", ""⟩]).1.failed = []) := by
  decide

/-- C1 (amended): for a two-entity swap batch over paths A and B that are
nonempty, distinct and contain no `.tmp-edir` component, running the engine
in either iteration order finishes with A's original content at B, B's
original content at A, and an empty failed sequence (hence no data loss). -/
theorem claim1_amended (A B : FPath) (a b : Nat) (d1 n1 d2 n2 : String)
    (hA : A ≠ []) (hB : B ≠ []) (hAB : A ≠ B)
    (hTA : TEMPDIR ∉ A) (hTB : TEMPDIR ∉ B) :
    (((engineRun false ⟨⟨[(A,a),(B,b)], []⟩, [], [], []⟩
        [⟨A, some B, none, [], false, d1, n1⟩, ⟨B, some A, none, [], false, d2, n2⟩]).1.fs.lookup B
      = some a) ∧
    ((engineRun false ⟨⟨[(A,a),(B,b)], []⟩, [], [], []⟩
        [⟨A, some B, none, [], false, d1, n1⟩, ⟨B, some A, none, [], false, d2, n2⟩]).1.fs.lookup A
      = some b) ∧
    ((engineRun false ⟨⟨[(A,a),(B,b)], []⟩, [], [], []⟩
        [⟨A, some B, none, [], false, d1, n1⟩, ⟨B, some A, none, [], false, d2, n2⟩]).1.failed
      = [])) ∧
    (((engineRun false ⟨⟨[(A,a),(B,b)], []⟩, [], [], []⟩
        [⟨B, some A, none, [], false, d2, n2⟩, ⟨A, some B, none, [], false, d1, n1⟩]).1.fs.lookup B
      = some a) ∧
    ((engineRun false ⟨⟨[(A,a),(B,b)], []⟩, [], [], []⟩
        [⟨B, some A, none, [], false, d2, n2⟩, ⟨A, some B, none, [], false, d1, n1⟩]).1.fs.lookup A
      = some b) ∧
    ((engineRun false ⟨⟨[(A,a),(B,b)], []⟩, [], [], []⟩
        [⟨B, some A, none, [], false, d2, n2⟩, ⟨A, some B, none, [], false, d1, n1⟩]).1.failed
      = [])) :=
  ⟨swap_run_ltr A B a b d1 n1 d2 n2 hA hB hAB hTA hTB,
   swap_run_rtl A B a b d1 n1 d2 n2 hA hB hAB hTA hTB⟩

/-- Witness for C1 (amended): the swap of `file1` and `file2`. -/
theorem claim1_witness :
    ((["file1"] : FPath) ≠ [] ∧ (["file2"] : FPath) ≠ [] ∧
      (["file1"] : FPath) ≠ ["file2"] ∧
      TEMPDIR ∉ (["file1"] : FPath) ∧ TEMPDIR ∉ (["file2"] : FPath)) ∧
    ((((engineRun false ⟨⟨[(["file1"],1),(["file2"],2)], []⟩, [], [], []⟩
        [⟨["file1"], some ["file2"], none, [], false, "file1", ""⟩,
         ⟨["file2"], some ["file1"], none, [], false, "file2", ""⟩]).1.fs.lookup ["file2"]
      = some 1) ∧
    ((engineRun false ⟨⟨[(["file1"],1),(["file2"],2)], []⟩, [], [], []⟩
        [⟨["file1"], some ["file2"], none, [], false, "file1", ""⟩,
         ⟨["file2"], some ["file1"], none, [], false, "file2", ""⟩]).1.fs.lookup ["file1"]
      = some 2) ∧
    ((engineRun false ⟨⟨[(["file1"],1),(["file2"],2)], []⟩, [], [], []⟩
        [⟨["file1"], some ["file2"], none, [], false, "file1", ""⟩,
         ⟨["file2"], some ["file1"], none, [], false, "file2", ""⟩]).1.failed
      = [])) ∧
    (((engineRun false ⟨⟨[(["file1"],1),(["file2"],2)], []⟩, [], [], []⟩
        [⟨["file2"], some ["file1"], none, [], false, "file2", ""⟩,
         ⟨["file1"], some ["file2"], none, [], false, "file1", ""⟩]).1.fs.lookup ["file2"]
      = some 1) ∧
    ((engineRun false ⟨⟨[(["file1"],1),(["file2"],2)], []⟩, [], [], []⟩
        [⟨["file2"], some ["file1"], none, [], false, "file2", ""⟩,
         ⟨["file1"], some ["file2"], none, [], false, "file1", ""⟩]).1.fs.lookup ["file1"]
      = some 2) ∧
    ((engineRun false ⟨⟨[(["file1"],1),(["file2"],2)], []⟩, [], [], []⟩
        [⟨["file2"], some ["file1"], none, [], false, "file2", ""⟩,
         ⟨["file1"], some ["file2"], none, [], false, "file1", ""⟩]).1.failed
      = []))) :=
  ⟨⟨by decide, by decide, by decide, by decide, by decide⟩,
   claim1_amended ["file1"] ["file2"] 1 2 "file1" "" "file2" ""
     (by decide) (by decide) (by decide) (by decide) (by decide)⟩

end Edir
